import Mathlib

/-!
# Vault secrets webhook and vault-env runtime

A shallow embedding of the two programs of the repository:

* `webhookmain` (vault-secrets-webhook/webhookmain/webhook.go): the admission
  mutator that rewrites a pod so that its containers start through `vault-env`;
* `vaultenv` (vault-env/main.go): the runtime that resolves `vault:` references
  of the inherited environment and replaces itself with the target program.

Go slices are lists, Go maps are association lists read with `List.lookup`
(a missing key of a `map[string]string` reads as the empty string), in-place
mutation is a function returning the new value.
-/

/-! ## Go library functions used by the two programs -/

namespace strings

/-- Go `strings.HasPrefix`. -/
def HasPrefix (s pre : String) : Bool :=
  pre.data.isPrefixOf s.data

/-- Go `strings.TrimPrefix`. -/
def TrimPrefix (s pre : String) : String :=
  if HasPrefix s pre then String.mk (s.data.drop pre.data.length) else s

/-- Go `strings.Index` on character lists: the position of the first occurrence
of `sep` in `s`, if any. -/
def Index (sep : List Char) : List Char → Option Nat
  | [] => if sep.isPrefixOf [] then some 0 else none
  | c :: cs =>
    if sep.isPrefixOf (c :: cs) then some 0 else (Index sep cs).map (fun m => m + 1)

/-- The loop of Go `genSplit` for a non-empty separator: at most `k` cuts. -/
def genSplit (sep : List Char) : Nat → List Char → List (List Char)
  | 0, s => [s]
  | k + 1, s =>
    match Index sep s with
    | none => [s]
    | some m => s.take m :: genSplit sep k (s.drop (m + sep.length))

/-- Go `explode`: at most `n` pieces of one character each, the last one taking
the rest. -/
def explode (s : List Char) (n : Nat) : List (List Char) :=
  let n := min n s.length
  if n = 0 then [] else (s.take (n - 1)).map (fun c => [c]) ++ [s.drop (n - 1)]

/-- Go `strings.SplitN` for a count `n ≥ 0`: at most `n` substrings, the last one
being the unsplit remainder. -/
def SplitN (s sep : String) (n : Nat) : List String :=
  if n = 0 then []
  else if sep = "" then (explode s.data n).map String.mk
  else (genSplit sep.data (n - 1) s.data).map String.mk

end strings

namespace strconv

/-- Go `strconv.ParseBool`: the value and the error, if any. -/
def ParseBool (str : String) : Bool × Option String :=
  match str with
  | "1" | "t" | "T" | "TRUE" | "true" | "True" => (true, none)
  | "0" | "f" | "F" | "FALSE" | "false" | "False" => (false, none)
  | _ => (false, some ("strconv.ParseBool: parsing \"" ++ str ++ "\": invalid syntax"))

end strconv

namespace webhookmain

/-! ## Kubernetes object model (the fields the mutator reads or writes) -/

/-- A `corev1.EnvVar`: name, literal value and an optional `valueFrom` source. -/
structure EnvVar where
  Name : String
  Value : String
  ValueFrom : Option String := none
  deriving DecidableEq, Repr

/-- A `corev1.VolumeMount`. -/
structure VolumeMount where
  Name : String
  MountPath : String
  deriving DecidableEq, Repr

/-- A `corev1.VolumeSource`: the two sources the mutator creates, and any other one. -/
inductive VolumeSource where
  | EmptyDir (Medium : String)
  | Secret (SecretName : String)
  | Other (kind : String)
  deriving DecidableEq, Repr

/-- A `corev1.Volume`. -/
structure Volume where
  Name : String
  VolumeSource : VolumeSource
  deriving DecidableEq, Repr

/-- A `corev1.Container`. -/
structure Container where
  Name : String
  Image : String := ""
  ImagePullPolicy : String := ""
  Command : List String := []
  Args : List String := []
  Env : List EnvVar := []
  VolumeMounts : List VolumeMount := []
  deriving DecidableEq, Repr

/-- A `corev1.PodSpec`. -/
structure PodSpec where
  InitContainers : List Container := []
  Containers : List Container := []
  Volumes : List Volume := []
  deriving DecidableEq, Repr

/-- A `metav1.ObjectMeta`. -/
structure ObjectMeta where
  Name : String := ""
  Namespace : String := ""
  Annotations : List (String × String) := []
  deriving DecidableEq, Repr

/-- A `corev1.Pod`. -/
structure Pod where
  ObjectMeta : ObjectMeta
  Spec : PodSpec
  deriving DecidableEq, Repr

/-- A `metav1.Object` as the mutator sees it: a pod, or an object of another kind. -/
inductive Object where
  | Pod (v : Pod)
  | Other (objectMeta : ObjectMeta)
  deriving DecidableEq, Repr

/-- The metadata of an object (`obj.GetAnnotations()`, `obj.GetNamespace()`). -/
def Object.meta : Object → ObjectMeta
  | .Pod v => v.ObjectMeta
  | .Other m => m

/-- An admission request, as far as the mutator reads it: its namespace. -/
structure AdmissionRequest where
  Namespace : String := ""
  deriving DecidableEq, Repr

/-- The context of a call: the admission request it carries, none when it
carries none (a `context.TODO()`), in which case the library accessor
`whcontext.GetAdmissionRequest` returns nil. -/
structure Context where
  admissionRequest : Option AdmissionRequest := none
  deriving DecidableEq, Repr

/-- How a call of the mutator ends: it returns the stop flag and the error, or it
panics; in both cases `obj` is the object as the call leaves it. -/
inductive Outcome where
  | returned (obj : Object) (stop : Bool) (err : Option String)
  | panic (obj : Object) (msg : String)
  deriving DecidableEq, Repr

/-- The object as the call leaves it. -/
def Outcome.object : Outcome → Object
  | .returned obj _ _ => obj
  | .panic obj _ => obj

/-- The viper configuration read by the mutator (`vault_env_image`). -/
structure Viper where
  vault_env_image : String := "innovia/vault-env:1.1.0"
  deriving DecidableEq, Repr

/-- Reading a Go `map[string]string`: the empty string when the key is missing. -/
def index (m : List (String × String)) (key : String) : String :=
  (m.lookup key).getD ""

/-! ## webhook.go -/

/-- The `VaultConfig` type. -/
structure VaultConfig where
  Addr : String := ""
  Role : String := ""
  Path : String := ""
  Enabled : Bool := false
  TLSSecretName : String := ""
  deriving DecidableEq, Repr

/-- The function `getVolumes`. -/
def getVolumes (vaultConfig : VaultConfig) : List Volume :=
  [ { Name := "vault-env", VolumeSource := .EmptyDir "Memory" },
    { Name := "tls", VolumeSource := .Secret vaultConfig.TLSSecretName } ]

/-- The function `getInitContainers`. -/
def getInitContainers (viper : Viper) (_vaultConfig : VaultConfig) : List Container :=
  [] ++ [ { Name := "init"
            Image := viper.vault_env_image
            ImagePullPolicy := "IfNotPresent"
            Command := ["sh", "-c", "cp /usr/local/bin/vault-env /vault/"]
            VolumeMounts := [ { Name := "vault-env", MountPath := "/vault" } ] } ]

/-- The body of the loop of `mutateContainers` once a container is known to hold a
reference: command and args, then the two mounts, then the four variables. -/
def rewriteContainer (container : Container) (vaultConfig : VaultConfig) : Container :=
  let args := container.Command ++ container.Args
  let container := { container with Command := ["/vault/vault-env"] }
  let container := { container with Args := args }
  let container := { container with
    VolumeMounts := container.VolumeMounts ++
      ([ { Name := "vault-env", MountPath := "/vault" },
         { Name := "tls", MountPath := "/etc/tls" } ] : List VolumeMount) }
  { container with
    Env := container.Env ++
      ([ { Name := "VAULT_ADDR", Value := vaultConfig.Addr },
         { Name := "VAULT_PATH", Value := vaultConfig.Path },
         { Name := "VAULT_ROLE", Value := vaultConfig.Role },
         { Name := "VAULT_CAPATH", Value := "/etc/tls/ca.pem" } ] : List EnvVar) }

/-- The loop of `mutateContainers` from the current index on, with the flag
`mutated` as it stands: the containers as written back and the final flag. -/
def mutateContainersLoop (vaultConfig : VaultConfig) :
    List Container → Bool → List Container × Bool
  | [], mutated => ([], mutated)
  | container :: rest, mutated =>
    let envVars := container.Env.filter (fun env => strings.HasPrefix env.Value "vault:")
    if envVars.length = 0 then
      let r := mutateContainersLoop vaultConfig rest mutated
      (container :: r.1, r.2)
    else
      let r := mutateContainersLoop vaultConfig rest true
      (rewriteContainer container vaultConfig :: r.1, r.2)

/-- The function `mutateContainers`: the slice after the in-place writes, the flag
and the error (always nil). -/
def mutateContainers (containers : List Container) (vaultConfig : VaultConfig)
    (_ns : String) : List Container × Bool × Option String :=
  let r := mutateContainersLoop vaultConfig containers false
  (r.1, r.2, none)

/-- The function `MutatePodSpec`: the pod spec after the call and the error. -/
def MutatePodSpec (viper : Viper) (_obj : Object) (podSpec : PodSpec)
    (vaultConfig : VaultConfig) (ns : String) : PodSpec × Option String :=
  let r := mutateContainers podSpec.InitContainers vaultConfig ns
  let podSpec := { podSpec with InitContainers := r.1 }
  let initContainersMutated := r.2.1
  match r.2.2 with
  | some err => (podSpec, some err)
  | none =>
    let r := mutateContainers podSpec.Containers vaultConfig ns
    let podSpec := { podSpec with Containers := r.1 }
    let containersMutated := r.2.1
    match r.2.2 with
    | some err => (podSpec, some err)
    | none =>
      if initContainersMutated || containersMutated then
        let podSpec := { podSpec with
          InitContainers := getInitContainers viper vaultConfig ++ podSpec.InitContainers }
        let podSpec := { podSpec with
          Volumes := podSpec.Volumes ++ getVolumes vaultConfig }
        (podSpec, none)
      else
        (podSpec, none)

/-- The function `parseVaultConfig`. -/
def parseVaultConfig (obj : Object) : VaultConfig :=
  let annotations := obj.meta.Annotations
  { Addr := index annotations "vault.security/vault-addr"
    Role := index annotations "vault.security/vault-role"
    Path := index annotations "vault.security/vault-path"
    Enabled := (strconv.ParseBool (index annotations "vault.security/enabled")).1
    TLSSecretName := index annotations "vault.security/vault-tls-secret-name" }

/-- Lines 193 to 199 of `VaultSecretsMutator`: the namespace of the object when
it is not empty, else the namespace of the admission request of the context;
none when the context carries no request, where the field access on the nil
request panics. -/
def namespaceOf (ctx : Context) (obj : Object) : Option String :=
  let ns := obj.meta.Namespace
  if ns.length > 0 then some ns
  else
    match ctx.admissionRequest with
    | some request => some request.Namespace
    | none => none

/-- The function `VaultSecretsMutator`: a return with the object after the call,
the stop flag and the error, or the panic of the field access
`GetAdmissionRequest(ctx).Namespace` on a nil admission request. -/
def VaultSecretsMutator (viper : Viper) (ctx : Context) (obj : Object) : Outcome :=
  match obj with
  | .Other _ => .returned obj false none
  | .Pod v =>
    let podSpec := v.Spec
    let vaultConfig := parseVaultConfig obj
    match namespaceOf ctx obj with
    | none => .panic obj "invalid memory address or nil pointer dereference"
    | some nspace =>
      if vaultConfig.Enabled then
        if vaultConfig.Addr = "" then
          .returned obj true (some "Error getting vault address - make sure you set the annotation \"vault.security/enabled\" on the Pod")
        else if vaultConfig.TLSSecretName = "" then
          .returned obj true (some "Error getting vault TLS secret name - make sure you set the annotation \"vault.security/vault-tls-secret-name\"")
        else if vaultConfig.Path = "" then
          .returned obj true (some "Error getting vault path - make sure you set the annotation \"vault.security/vault-path\"")
        else if vaultConfig.Role = "" then
          .returned obj true (some "Error getting vault role - make sure you set the annotation \"vault.security/vault-role\"")
        else if vaultConfig.Addr = "" then
          .returned obj true (some "Error getting vault address - make sure you set the annotation \"vault.security/vault-addr\"")
        else
          let r := MutatePodSpec viper obj podSpec vaultConfig nspace
          .returned (.Pod { v with Spec := r.1 }) false r.2
      else
        .returned obj false none

/-! ## Predicates used to state the properties -/

/-- The container has at least one env entry whose value starts with `vault:`. -/
def holdsReference (c : Container) : Bool :=
  c.Env.any (fun env => strings.HasPrefix env.Value "vault:")

/-- The annotation `vault.security/enabled` of the pod parses as true. -/
def enabled (pod : Pod) : Bool :=
  (strconv.ParseBool (index pod.ObjectMeta.Annotations "vault.security/enabled")).1

/-- The four required annotations of the pod are all present and non-empty. -/
def configured (pod : Pod) : Bool :=
  index pod.ObjectMeta.Annotations "vault.security/vault-addr" != "" &&
  index pod.ObjectMeta.Annotations "vault.security/vault-path" != "" &&
  index pod.ObjectMeta.Annotations "vault.security/vault-role" != "" &&
  index pod.ObjectMeta.Annotations "vault.security/vault-tls-secret-name" != ""

/-- The call has a namespace to work with: the pod has a non-empty one
(`len(ns) > 0`) or the context carries an admission request. -/
def hasNamespace (ctx : Context) (pod : Pod) : Bool :=
  decide (pod.ObjectMeta.Namespace.length > 0) || ctx.admissionRequest.isSome

/-- What the loop of `mutateContainers` writes at one index. -/
def mutateOne (vaultConfig : VaultConfig) (c : Container) : Container :=
  if holdsReference c then rewriteContainer c vaultConfig else c

/-! ## Example pods (tests/mutator_test.go) -/

/-- The input pod of the first test case: no annotation at all. -/
def podPlain : Pod :=
  { ObjectMeta := { Name := "test-pod-with-no-annotation", Namespace := "default" }
    Spec :=
      { InitContainers := [ { Name := "init", Image := "some-image" } ]
        Containers :=
          [ { Name := "main", Image := "alpine", Command := ["command"]
              Args := ["with", "extra", "args"]
              Env := [ { Name := "SOME_VAR", Value := "12345678" } ] } ]
        Volumes := [ { Name := "EmptyDir", VolumeSource := .EmptyDir "" } ] } }

/-- The five annotations of the second test case, with a chosen value for
`vault.security/enabled` and for `vault.security/vault-addr`. -/
def testAnnotations (enabledValue addr : String) : List (String × String) :=
  [ ("vault.security/enabled", enabledValue),
    ("vault.security/vault-addr", addr),
    ("vault.security/vault-role", "some-role"),
    ("vault.security/vault-path", "/secret/some/path"),
    ("vault.security/vault-tls-secret-name", "vault-consul-ca") ]

/-- The container of the second test case: one secret reference. -/
def alpineContainer : Container :=
  { Name := "alpine", Image := "alpine", Command := ["user-command"]
    Args := ["with", "extra", "args"]
    Env := [ { Name := "AWS_SECRET_ACCESS_KEY", Value := "vault:AWS_SECRET_ACCESS_KEY" } ] }

/-- The input pod of the second test case, with a chosen value for
`vault.security/enabled` and for `vault.security/vault-addr`. -/
def podAnnotated (enabledValue addr : String) : Pod :=
  { ObjectMeta :=
      { Name := "test-pod-with-no-annotation", Namespace := "default"
        Annotations := testAnnotations enabledValue addr }
    Spec := { Containers := [alpineContainer] } }

/-- The input pod of the second test case. -/
def podEnabled : Pod :=
  podAnnotated "true" "https://vault.default.svc.cluster.local:8200"

/-- The pod the second test case expects after the mutation. -/
def expPodEnabled : Pod :=
  { ObjectMeta := podEnabled.ObjectMeta
    Spec :=
      { InitContainers :=
          [ { Name := "init", Image := "innovia/vault-env:1.1.0"
              ImagePullPolicy := "IfNotPresent"
              Command := ["sh", "-c", "cp /usr/local/bin/vault-env /vault/"]
              VolumeMounts := [ { Name := "vault-env", MountPath := "/vault" } ] } ]
        Containers :=
          [ { Name := "alpine", Image := "alpine", Command := ["/vault/vault-env"]
              Args := ["user-command", "with", "extra", "args"]
              Env :=
                [ { Name := "AWS_SECRET_ACCESS_KEY", Value := "vault:AWS_SECRET_ACCESS_KEY" },
                  { Name := "VAULT_ADDR", Value := "https://vault.default.svc.cluster.local:8200" },
                  { Name := "VAULT_PATH", Value := "/secret/some/path" },
                  { Name := "VAULT_ROLE", Value := "some-role" },
                  { Name := "VAULT_CAPATH", Value := "/etc/tls/ca.pem" } ]
              VolumeMounts :=
                [ { Name := "vault-env", MountPath := "/vault" },
                  { Name := "tls", MountPath := "/etc/tls" } ] } ]
        Volumes :=
          [ { Name := "vault-env", VolumeSource := .EmptyDir "Memory" },
            { Name := "tls", VolumeSource := .Secret "vault-consul-ca" } ] } }

/-- A container without any secret reference. -/
def sidecarContainer : Container :=
  { Name := "sidecar", Image := "busybox", Command := ["sleep"], Args := ["3600"]
    Env := [ { Name := "VAULT_ADDR", Value := "http://elsewhere:8200" } ]
    VolumeMounts := [ { Name := "data", MountPath := "/data" } ] }

/-- An init container holding a secret reference and a variable named `VAULT_ADDR`. -/
def migrateContainer : Container :=
  { Name := "migrate", Image := "flyway", Command := ["flyway"], Args := ["migrate"]
    Env := [ { Name := "VAULT_ADDR", Value := "http://old:8200" },
             { Name := "DB_PASSWORD", Value := "vault:DB_PASSWORD" } ]
    VolumeMounts := [ { Name := "sql", MountPath := "/sql" } ] }

/-- An enabled, fully annotated pod with two init containers and two containers,
one of each holding a secret reference, and one volume. -/
def podMixed : Pod :=
  { ObjectMeta := podEnabled.ObjectMeta
    Spec :=
      { InitContainers := [sidecarContainer, migrateContainer]
        Containers := [sidecarContainer, alpineContainer]
        Volumes := [ { Name := "data", VolumeSource := .Other "hostPath" } ] } }

/-- An enabled, fully annotated pod none of whose containers holds a reference. -/
def podNoReference : Pod :=
  { ObjectMeta := podEnabled.ObjectMeta
    Spec :=
      { InitContainers := [sidecarContainer]
        Containers := [sidecarContainer]
        Volumes := [ { Name := "data", VolumeSource := .Other "hostPath" } ] } }

/-- A pod without its namespace, as an admission request may carry it. -/
def withoutNamespace (pod : Pod) : Pod :=
  { pod with ObjectMeta := { pod.ObjectMeta with Namespace := "" } }

end webhookmain

/-! # vault-env/main.go -/

namespace vaultenv

/-- A Go `interface{}` holding a decoded JSON value, as the fields of a Vault
secret are: a string, a number (`json.Number`), a boolean, null, an array or an
object (`map[string]interface{}`). -/
inductive Value where
  | str (s : String)
  | num (n : String)
  | bool (b : Bool)
  | null
  | arr (items : List Value)
  | obj (fields : List (String × Value))

/-- A `vaultapi.Secret`: the field `Data`. -/
structure Secret where
  Data : List (String × Value)

/-- How the process ends: `syscall.Exec` replaced it by the target program, a
`log.Fatal` (exit status 1), an `os.Exit` after a message on stderr, or a Go
run-time panic (exit status 2). -/
inductive Exit where
  | exec (argv0 : String) (argv : List String) (envv : List String)
  | fatal (msg : String)
  | exit (code : Nat) (stderr : String)
  | panic (msg : String)
  deriving DecidableEq, Repr

/-- The exit status of the runtime, none when the target program took over. -/
def Exit.status : Exit → Option Nat
  | .exec _ _ _ => none
  | .fatal _ => some 1
  | .exit code _ => some code
  | .panic _ => some 2

/-- A step of the runtime: it goes on with a value, or the process ends. -/
inductive Run (α : Type) where
  | done (a : α)
  | stop (e : Exit)
  deriving DecidableEq, Repr

/-- The library function `cast.ToStringMap` on a decoded JSON value: an object
is returned as it is, a string is read as JSON text by `jsonStringToObject`
(a library parser, an input of the model: the map it leaves, empty on a
parse error), any other value gives the empty map. -/
def ToStringMap (jsonStringToObject : String → List (String × Value)) :
    Value → List (String × Value)
  | .obj fields => fields
  | .str s => jsonStringToObject s
  | _ => []

/-- The variable `sanitizeEnvmap`. -/
def sanitizeEnvmap : List (String × Bool) :=
  [ ("VAULT_TOKEN", true),
    ("VAULT_ADDR", true),
    ("VAULT_CACERT", true),
    ("VAULT_CAPATH", true),
    ("VAULT_CLIENT_CERT", true),
    ("VAULT_CLIENT_KEY", true),
    ("VAULT_CLIENT_TIMEOUT", true),
    ("VAULT_CLUSTER_ADDR", true),
    ("VAULT_MAX_RETRIES", true),
    ("VAULT_REDIRECT_ADDR", true),
    ("VAULT_SKIP_VERIFY", true),
    ("VAULT_TLS_SERVER_NAME", true),
    ("VAULT_CLI_NO_COLOR", true),
    ("VAULT_RATE_LIMIT", true),
    ("VAULT_NAMESPACE", true),
    ("VAULT_MFA", true),
    ("VAULT_ROLE", true),
    ("VAULT_PATH", true) ]

/-- The method `sanitizedEnviron.append`: both arguments are asserted to be
strings (a failed assertion panics), and the entry `name=value` is appended
unless the name is a key of `sanitizeEnvmap`. -/
def append (environ : List String) (iname ivalue : Value) : Run (List String) :=
  match iname, ivalue with
  | .str name, .str value =>
    if (sanitizeEnvmap.lookup name).isSome then .done environ
    else .done (environ ++ [name ++ "=" ++ value])
  | _, _ => .stop (.panic "interface conversion: interface \x7b\x7d is not string")

/-- The map `data` that the loop of `main` looks a key up in: the value of the
field "data" of the secret when there is one, else the fields of the secret, each
through `cast.ToStringMap`. -/
def data (jsonStringToObject : String → List (String × Value)) (secret : Secret) :
    List (String × Value) :=
  match secret.Data.lookup "data" with
  | some v2Data => ToStringMap jsonStringToObject v2Data
  | none => ToStringMap jsonStringToObject (.obj secret.Data)

/-- The body of the loop of `main` over the inherited environment, for one entry
`env` and the list `sanitized` built so far. -/
def processEntry (jsonStringToObject : String → List (String × Value))
    (secret : Secret) (sanitized : List String) (env : String) : Run (List String) :=
  let split := strings.SplitN env "=" 2
  match split with
  | [] => .stop (.panic "index out of range [0] with length 0")
  | [_] => .stop (.panic "index out of range [1] with length 1")
  | name :: value :: _ =>
    if strings.HasPrefix value "vault:" then
      let key := strings.TrimPrefix value "vault:"
      let data := data jsonStringToObject secret
      match data.lookup key with
      | some value => append sanitized (.str name) value
      | none => .stop (.exit 1 ("key not found: " ++ key))
    else
      append sanitized (.str name) (.str value)

/-- The loop of `main` over the inherited environment, from the entries still to
process and the list `sanitized` built so far. -/
def processEnviron (jsonStringToObject : String → List (String × Value))
    (secret : Secret) : List String → List String → Run (List String)
  | [], sanitized => .done sanitized
  | env :: rest, sanitized =>
    match processEntry jsonStringToObject secret sanitized env with
    | .stop e => .stop e
    | .done sanitized => processEnviron jsonStringToObject secret rest sanitized

/-- What the operating system and Vault give to one run of `main`. -/
structure Process where
  /-- The result of `syscall.Environ()`. -/
  environ : List String
  /-- The value of `os.Args`. -/
  Args : List String
  /-- The error of `vault.NewClientWithConfig`, none when the login succeeded. -/
  clientError : Option String := none
  /-- The result of `client.Logical.Read(path)`: the secret (nil when the path
  does not exist) and the error. -/
  secret : Option Secret := none
  secretError : Option String := none
  /-- The function `exec.LookPath`: the resolved path, or none. -/
  LookPath : String → Option String := fun file => some file
  /-- The error of `syscall.Exec`, none when the process image was replaced. -/
  execError : Option String := none

/-- Go `os.Getenv` on the inherited environment: the value of the first entry
`key=value`, the empty string when there is none; an entry without `=` is
skipped. -/
def Getenv (environ : List String) (key : String) : String :=
  match environ.find? (fun env =>
      match strings.SplitN env "=" 2 with
      | [name, _] => name == key
      | _ => false) with
  | some env => ((strings.SplitN env "=" 2).drop 1).headD ""
  | none => ""

/-- The last part of `main`: the command check, `exec.LookPath` and
`syscall.Exec`. -/
def launch (p : Process) (sanitized : List String) : Exit :=
  if p.Args.length = 1 then
    .fatal ("No command is given, currently vault-env can't determine the entrypoint (command) " ++
      "please specify it explicitly")
  else
    match p.Args.drop 1 with
    | [] => .panic "index out of range [1] with length 0"
    | arg1 :: rest =>
      match p.LookPath arg1 with
      | none => .fatal ("Binary not found: " ++ arg1)
      | some binary =>
        match p.execError with
        | some err => .fatal ("Failed to exec process '" ++ binary ++ "': " ++ err)
        | none => .exec binary (arg1 :: rest) sanitized

/-- The function `main`. -/
def main (jsonStringToObject : String → List (String × Value)) (p : Process) : Exit :=
  let role := Getenv p.environ "VAULT_ROLE"
  let path := Getenv p.environ "VAULT_PATH"
  if role = "" then .fatal "VAULT_ROLE environment variables is missing"
  else if path = "" then .fatal "VAULT_PATH environment variables is missing"
  else
    match p.clientError with
    | some err => .fatal ("Failed to create vault client: " ++ err)
    | none =>
      let environ := p.environ
      let sanitized : List String := []
      match p.secretError with
      | some _ =>
        -- `err.Error()` is called on the nil error of the client creation
        .panic "invalid memory address or nil pointer dereference"
      | none =>
        match p.secret with
        | none => .fatal ("Vault secret path not found: " ++ path)
        | some secret =>
          match processEnviron jsonStringToObject secret environ sanitized with
          | .stop e => e
          | .done sanitized => launch p sanitized

/-! ## Example runs -/

/-- A `jsonStringToObject` that leaves the empty map on every text, as the library
parser does on a text that is not a JSON object. -/
def noObject : String → List (String × Value) :=
  fun _ => []

/-- The flat secret document of the specification, with a token next to it. -/
def flatSecret : Secret :=
  { Data := [ ("API_KEY", .str "xyz"), ("TOKEN", .str "s.abc"), ("PORT", .num "5432") ] }

/-- The same document in the versioned shape: the fields under "data". -/
def versionedSecret : Secret :=
  { Data :=
      [ ("data", .obj [ ("API_KEY", .str "xyz"), ("TOKEN", .str "s.abc"), ("PORT", .num "5432") ]),
        ("metadata", .obj [ ("version", .num "3") ]) ] }

/-- An inherited environment as a mutated container has it: a plain entry, the
entries appended by the webhook and two references, one under an allow-listed name. -/
def exampleEnviron : List String :=
  [ "HOME=/root",
    "API_KEY=vault:API_KEY",
    "VAULT_TOKEN=vault:TOKEN",
    "VAULT_ADDR=https://vault.default.svc.cluster.local:8200",
    "VAULT_PATH=/secret/some/path",
    "VAULT_ROLE=some-role",
    "VAULT_CAPATH=/etc/tls/ca.pem" ]

/-- A string-to-string map as a flat secret document: the map itself. -/
def flatDocument (m : List (String × String)) : Secret :=
  { Data := m.map (fun kv => (kv.1, Value.str kv.2)) }

/-- A string-to-string map as a versioned secret document: the map under "data". -/
def versionedDocument (m : List (String × String)) : Secret :=
  { Data := [ ("data", Value.obj (m.map (fun kv => (kv.1, Value.str kv.2)))) ] }

/-- A run of the runtime in a mutated container, with a chosen environment after
the two variables `main` reads first: the login succeeds, the read of the path
gives `flatSecret`, every program is found under /usr/bin, exec succeeds. -/
def exampleProcess (environ : List String) : Process :=
  { environ := ["VAULT_ROLE=some-role", "VAULT_PATH=/secret/some/path"] ++ environ
    Args := ["/vault/vault-env", "user-command", "with", "extra", "args"]
    secret := some flatSecret
    LookPath := fun file => some ("/usr/bin/" ++ file) }

end vaultenv

/-! # Further definitions for the properties below -/

namespace strings

/-- Go `strings.Contains`: `substr` occurs in `s`. -/
def Contains (s substr : String) : Bool :=
  (Index substr.data s.data).isSome

end strings

namespace webhookmain

/-- The pod of the second test case without one of its annotations. -/
def podWithout (key : String) : Pod :=
  { podEnabled with
    ObjectMeta := { podEnabled.ObjectMeta with
      Annotations := podEnabled.ObjectMeta.Annotations.filter (fun kv => kv.1 != key) } }

/-- The four variables that the loop of `mutateContainers` appends to the env of
a container (webhook.go, lines 121 to 137). -/
def injectedEnv (vaultConfig : VaultConfig) : List EnvVar :=
  [ { Name := "VAULT_ADDR", Value := vaultConfig.Addr },
    { Name := "VAULT_PATH", Value := vaultConfig.Path },
    { Name := "VAULT_ROLE", Value := vaultConfig.Role },
    { Name := "VAULT_CAPATH", Value := "/etc/tls/ca.pem" } ]

/-- The two mounts that the loop of `mutateContainers` appends to the mounts of a
container (webhook.go, lines 110 to 118). -/
def injectedMounts : List VolumeMount :=
  [ { Name := "vault-env", MountPath := "/vault" },
    { Name := "tls", MountPath := "/etc/tls" } ]

end webhookmain

namespace vaultenv

/-- The name of an entry of an environment: `split[0]` of
`strings.SplitN(env, "=", 2)`, as the loop of `main` takes it. -/
def entryName (env : String) : String :=
  (strings.SplitN env "=" 2).headD ""

end vaultenv

namespace vaultenv

/-- A run in which the login succeeds and the read of the secret path returns an
error. -/
def readErrorProcess : Process :=
  { exampleProcess [] with secret := none, secretError := some "permission denied" }

/-- A run in which the login succeeds and the read of the secret path returns no
error and no secret. -/
def notFoundProcess : Process :=
  { exampleProcess [] with secret := none, secretError := none }

/-- The environment strings `NAME=value` of a list of env vars with literal
values, in the order of the list. -/
def environOf (envs : List webhookmain.EnvVar) : List String :=
  envs.map (fun e => e.Name ++ "=" ++ e.Value)

/-- A secret document holding the key of the second test case of the webhook. -/
def awsSecret : Secret :=
  { Data := [ ("data", .obj [ ("AWS_SECRET_ACCESS_KEY", .str "wJalr") ]) ] }

/-- A run of the runtime started as the orchestrator starts a container: `os.Args`
is the command of the container followed by its args, the environment is a
search path followed by its env vars; the login succeeds, the read gives
`awsSecret`, every program is found under /usr/bin and exec succeeds. -/
def containerProcess (c : webhookmain.Container) : Process :=
  { environ := "PATH=/usr/bin" :: environOf c.Env
    Args := c.Command ++ c.Args
    secret := some awsSecret
    LookPath := fun file => some ("/usr/bin/" ++ file) }

end vaultenv

namespace vaultenv

/-- The diagnostic of `main` when `os.Args` holds nothing but the runtime itself. -/
def noCommandDiagnostic : String :=
  "No command is given, currently vault-env can't determine the entrypoint (command) " ++
    "please specify it explicitly"

end vaultenv

namespace webhookmain

/-- A container that holds a reference and leaves command and args to the image. -/
def entrypointContainer : Container :=
  { alpineContainer with Name := "entrypoint", Command := [], Args := [] }

end webhookmain

/-! # Properties of the admission mutator -/

namespace webhookmain

/-! ## The loop of `mutateContainers` as a map -/

theorem filter_length_eq_zero {α : Type} (p : α → Bool) (l : List α) :
    (l.filter p).length = 0 ↔ l.any p = false := by
  induction l with
  | nil => simp
  | cons a t ih =>
    by_cases h : p a = true
    · simp [List.filter_cons, h]
    · simp only [Bool.not_eq_true] at h
      simp [List.filter_cons, h]

theorem mutateContainersLoop_eq (vaultConfig : VaultConfig) (cs : List Container)
    (mutated : Bool) :
    mutateContainersLoop vaultConfig cs mutated =
      (cs.map (mutateOne vaultConfig), mutated || cs.any holdsReference) := by
  induction cs generalizing mutated with
  | nil => simp [mutateContainersLoop]
  | cons c t ih =>
    unfold mutateContainersLoop
    by_cases h : holdsReference c = true
    · have h0 : ¬ (List.filter (fun env => strings.HasPrefix env.Value "vault:") c.Env).length = 0 := by
        rw [filter_length_eq_zero]; simpa [holdsReference] using h
      simp [h0, ih, mutateOne, h]
    · simp only [Bool.not_eq_true] at h
      have h0 : (List.filter (fun env => strings.HasPrefix env.Value "vault:") c.Env).length = 0 := by
        rw [filter_length_eq_zero]; simpa [holdsReference] using h
      simp [h0, ih, mutateOne, h]

theorem mutateContainers_eq (cs : List Container) (vaultConfig : VaultConfig) (ns : String) :
    mutateContainers cs vaultConfig ns =
      (cs.map (mutateOne vaultConfig), cs.any holdsReference, none) := by
  simp [mutateContainers, mutateContainersLoop_eq]

theorem MutatePodSpec_eq (viper : Viper) (obj : Object) (podSpec : PodSpec)
    (vaultConfig : VaultConfig) (ns : String) :
    MutatePodSpec viper obj podSpec vaultConfig ns =
      (if podSpec.InitContainers.any holdsReference || podSpec.Containers.any holdsReference then
        { InitContainers := getInitContainers viper vaultConfig ++
            podSpec.InitContainers.map (mutateOne vaultConfig)
          Containers := podSpec.Containers.map (mutateOne vaultConfig)
          Volumes := podSpec.Volumes ++ getVolumes vaultConfig }
      else
        { InitContainers := podSpec.InitContainers.map (mutateOne vaultConfig)
          Containers := podSpec.Containers.map (mutateOne vaultConfig)
          Volumes := podSpec.Volumes }, none) := by
  simp only [MutatePodSpec, mutateContainers_eq]
  split <;> rfl

end webhookmain

namespace webhookmain

/-! ## The four outcomes of `VaultSecretsMutator` -/

theorem namespaceOf_of_hasNamespace (ctx : Context) (pod : Pod)
    (h : hasNamespace ctx pod = true) : ∃ n : String, namespaceOf ctx (.Pod pod) = some n := by
  unfold namespaceOf
  simp only [Object.meta]
  by_cases hlen : pod.ObjectMeta.Namespace.length > 0
  · exact ⟨_, by rw [if_pos hlen]⟩
  · rw [if_neg hlen]
    cases hreq : ctx.admissionRequest with
    | some request => exact ⟨_, rfl⟩
    | none => simp [hasNamespace, hlen, hreq] at h

theorem namespaceOf_of_not_hasNamespace (ctx : Context) (pod : Pod)
    (h : hasNamespace ctx pod = false) : namespaceOf ctx (.Pod pod) = none := by
  simp only [hasNamespace, Bool.or_eq_false_iff, decide_eq_false_iff_not] at h
  obtain ⟨hlen, hreq⟩ := h
  unfold namespaceOf
  simp only [Object.meta]
  rw [if_neg hlen]
  cases hr : ctx.admissionRequest with
  | some request => simp [hr] at hreq
  | none => rfl

/-- Without a namespace on the pod and without an admission request in the
context the call panics and leaves the pod as it is. -/
theorem VaultSecretsMutator_panics (viper : Viper) (ctx : Context) (pod : Pod)
    (h : hasNamespace ctx pod = false) :
    VaultSecretsMutator viper ctx (.Pod pod) =
      .panic (.Pod pod) "invalid memory address or nil pointer dereference" := by
  simp only [VaultSecretsMutator, namespaceOf_of_not_hasNamespace ctx pod h]

theorem VaultSecretsMutator_disabled (viper : Viper) (ctx : Context) (pod : Pod)
    (hns : hasNamespace ctx pod = true) (h : enabled pod = false) :
    VaultSecretsMutator viper ctx (.Pod pod) = .returned (.Pod pod) false none := by
  obtain ⟨n, hn⟩ := namespaceOf_of_hasNamespace ctx pod hns
  simp only [enabled] at h
  simp [VaultSecretsMutator, hn, parseVaultConfig, Object.meta, h]

theorem VaultSecretsMutator_valid (viper : Viper) (ctx : Context) (pod : Pod)
    (hns : hasNamespace ctx pod = true)
    (hEn : enabled pod = true) (hCfg : configured pod = true) :
    VaultSecretsMutator viper ctx (.Pod pod) =
      .returned (.Pod { pod with
          Spec := (MutatePodSpec viper (.Pod pod) pod.Spec (parseVaultConfig (.Pod pod)) "").1 })
        false none := by
  obtain ⟨n, hn⟩ := namespaceOf_of_hasNamespace ctx pod hns
  simp only [enabled] at hEn
  simp only [configured, Bool.and_eq_true, bne_iff_ne, ne_eq] at hCfg
  obtain ⟨⟨⟨h1, h2⟩, h3⟩, h4⟩ := hCfg
  simp [VaultSecretsMutator, hn, parseVaultConfig, Object.meta, hEn, h1, h2, h3, h4,
    MutatePodSpec_eq]

theorem VaultSecretsMutator_rejects (viper : Viper) (ctx : Context) (pod : Pod)
    (hns : hasNamespace ctx pod = true)
    (hEn : enabled pod = true)
    (hMiss : index pod.ObjectMeta.Annotations "vault.security/vault-addr" = "" ∨
      index pod.ObjectMeta.Annotations "vault.security/vault-path" = "" ∨
      index pod.ObjectMeta.Annotations "vault.security/vault-role" = "" ∨
      index pod.ObjectMeta.Annotations "vault.security/vault-tls-secret-name" = "") :
    ∃ err : String,
      VaultSecretsMutator viper ctx (.Pod pod) = .returned (.Pod pod) true (some err) := by
  obtain ⟨n, hn⟩ := namespaceOf_of_hasNamespace ctx pod hns
  simp only [enabled] at hEn
  simp only [VaultSecretsMutator, hn, parseVaultConfig, Object.meta, hEn, if_true]
  by_cases h1 : index pod.ObjectMeta.Annotations "vault.security/vault-addr" = ""
  · exact ⟨_, by rw [if_pos h1]⟩
  · rw [if_neg h1]
    by_cases h2 : index pod.ObjectMeta.Annotations "vault.security/vault-tls-secret-name" = ""
    · exact ⟨_, by rw [if_pos h2]⟩
    · rw [if_neg h2]
      by_cases h3 : index pod.ObjectMeta.Annotations "vault.security/vault-path" = ""
      · exact ⟨_, by rw [if_pos h3]⟩
      · rw [if_neg h3]
        by_cases h4 : index pod.ObjectMeta.Annotations "vault.security/vault-role" = ""
        · exact ⟨_, by rw [if_pos h4]⟩
        · exfalso
          rcases hMiss with h | h | h | h
          · exact h1 h
          · exact h3 h
          · exact h4 h
          · exact h2 h

/-- C1 as stated fails: the pod of the first test case has no annotation at all;
without its namespace and under a context that carries no admission request
(the `context.TODO()` of the test), `VaultSecretsMutator` does not return
`(false, nil)`: the namespace is read from the nil admission request before
the enabled flag is looked at, and the call panics. -/
theorem C1_disabled_pod_without_namespace_panics :
    (withoutNamespace podPlain).ObjectMeta.Annotations.lookup "vault.security/enabled" = none ∧
    VaultSecretsMutator {} {} (.Pod (withoutNamespace podPlain)) =
      .panic (.Pod (withoutNamespace podPlain))
        "invalid memory address or nil pointer dereference" ∧
    VaultSecretsMutator {} {} (.Pod (withoutNamespace podPlain)) ≠
      .returned (.Pod (withoutNamespace podPlain)) false none := by
  decide

/-- C1, amended. A pod that has a non-empty namespace, or is handled under a
context that carries an admission request, and whose annotations lack
`vault.security/enabled`, or whose value for it does not parse as true under
`strconv.ParseBool`, is left as it is: `VaultSecretsMutator` returns
`(false, nil)` and the pod after the call (init containers, containers,
volumes, annotations) is the input pod. -/
theorem C1_disabled_pod_is_unchanged (viper : Viper) (ctx : Context) (pod : Pod)
    (hns : hasNamespace ctx pod = true)
    (h : pod.ObjectMeta.Annotations.lookup "vault.security/enabled" = none ∨
      (strconv.ParseBool (index pod.ObjectMeta.Annotations "vault.security/enabled")).1 = false) :
    VaultSecretsMutator viper ctx (.Pod pod) = .returned (.Pod pod) false none := by
  apply VaultSecretsMutator_disabled viper ctx pod hns
  rcases h with h | h
  · simp [enabled, index, h, strconv.ParseBool]
  · simpa [enabled] using h

/-- C2 as stated fails: the pod of the second test case with an empty `vault-addr`
annotation is enabled; without its namespace and under a context that carries
no admission request, `VaultSecretsMutator` returns no error at all: it panics
before the four annotations are checked. -/
theorem C2_rejected_pod_without_namespace_panics :
    enabled (withoutNamespace (podAnnotated "true" "")) = true ∧
    index (withoutNamespace (podAnnotated "true" "")).ObjectMeta.Annotations
      "vault.security/vault-addr" = "" ∧
    VaultSecretsMutator {} {} (.Pod (withoutNamespace (podAnnotated "true" ""))) =
      .panic (.Pod (withoutNamespace (podAnnotated "true" "")))
        "invalid memory address or nil pointer dereference" ∧
    ¬ ∃ err : String,
      VaultSecretsMutator {} {} (.Pod (withoutNamespace (podAnnotated "true" ""))) =
        .returned (.Pod (withoutNamespace (podAnnotated "true" ""))) true (some err) := by
  refine ⟨by decide, by decide, by decide, ?_⟩
  rintro ⟨err, herr⟩
  have hp : VaultSecretsMutator {} {} (.Pod (withoutNamespace (podAnnotated "true" ""))) =
      .panic (.Pod (withoutNamespace (podAnnotated "true" "")))
        "invalid memory address or nil pointer dereference" := by decide
  rw [hp] at herr
  exact absurd herr (by simp)

/-- C2, amended. For an enabled pod that has a non-empty namespace, or is handled
under a context that carries an admission request, and in which one of the four
required annotations is absent or empty, `VaultSecretsMutator` returns
stop = true with an error, and the pod after the call is exactly the input pod. -/
theorem C2_missing_annotation_rejects (viper : Viper) (ctx : Context) (pod : Pod)
    (hns : hasNamespace ctx pod = true)
    (hEn : enabled pod = true)
    (hMiss : index pod.ObjectMeta.Annotations "vault.security/vault-addr" = "" ∨
      index pod.ObjectMeta.Annotations "vault.security/vault-path" = "" ∨
      index pod.ObjectMeta.Annotations "vault.security/vault-role" = "" ∨
      index pod.ObjectMeta.Annotations "vault.security/vault-tls-secret-name" = "") :
    ∃ err : String,
      VaultSecretsMutator viper ctx (.Pod pod) = .returned (.Pod pod) true (some err) :=
  VaultSecretsMutator_rejects viper ctx pod hns hEn hMiss

end webhookmain

namespace webhookmain

/-- C1 (amended) at the pod of the first test case (no annotation) and at the pod
of the second test case with the values "false", "" and "yes" for the
annotation, each with its namespace "default"; and at the pod of the first test
case without its namespace under a context that carries an admission request. -/
theorem C1_disabled_pod_is_unchanged_witness :
    (hasNamespace {} podPlain = true ∧
      podPlain.ObjectMeta.Annotations.lookup "vault.security/enabled" = none ∧
      VaultSecretsMutator {} {} (.Pod podPlain) = .returned (.Pod podPlain) false none) ∧
    ((strconv.ParseBool "false").1 = false ∧
      VaultSecretsMutator {} {} (.Pod (podAnnotated "false" "https://vault:8200")) =
        .returned (.Pod (podAnnotated "false" "https://vault:8200")) false none) ∧
    ((strconv.ParseBool "").1 = false ∧
      VaultSecretsMutator {} {} (.Pod (podAnnotated "" "https://vault:8200")) =
        .returned (.Pod (podAnnotated "" "https://vault:8200")) false none) ∧
    ((strconv.ParseBool "yes").1 = false ∧
      VaultSecretsMutator {} {} (.Pod (podAnnotated "yes" "https://vault:8200")) =
        .returned (.Pod (podAnnotated "yes" "https://vault:8200")) false none) ∧
    (hasNamespace { admissionRequest := some { Namespace := "default" } }
        (withoutNamespace podPlain) = true ∧
      VaultSecretsMutator {} { admissionRequest := some { Namespace := "default" } }
          (.Pod (withoutNamespace podPlain)) =
        .returned (.Pod (withoutNamespace podPlain)) false none) :=
  ⟨⟨by decide, by decide,
    C1_disabled_pod_is_unchanged {} {} podPlain (by decide) (Or.inl (by decide))⟩,
   ⟨by decide, C1_disabled_pod_is_unchanged {} {} _ (by decide) (Or.inr (by decide))⟩,
   ⟨by decide, C1_disabled_pod_is_unchanged {} {} _ (by decide) (Or.inr (by decide))⟩,
   ⟨by decide, C1_disabled_pod_is_unchanged {} {} _ (by decide) (Or.inr (by decide))⟩,
   ⟨by decide, C1_disabled_pod_is_unchanged {} _ _ (by decide) (Or.inl (by decide))⟩⟩

/-- C2 (amended) at the pod of the second test case with an empty `vault-addr`
annotation. -/
theorem C2_missing_annotation_rejects_witness :
    hasNamespace {} (podAnnotated "true" "") = true ∧
    enabled (podAnnotated "true" "") = true ∧
    index (podAnnotated "true" "").ObjectMeta.Annotations "vault.security/vault-addr" = "" ∧
    ∃ err : String, VaultSecretsMutator {} {} (.Pod (podAnnotated "true" "")) =
      .returned (.Pod (podAnnotated "true" "")) true (some err) :=
  ⟨by decide, by decide, by decide,
   C2_missing_annotation_rejects {} {} (podAnnotated "true" "") (by decide) (by decide)
     (Or.inl (by decide))⟩

end webhookmain

namespace webhookmain

/-- The second case of `TestVaultEnvInjectionPodMutate`: the model returns the
expected pod. -/
theorem test_mutating_should_happen :
    VaultSecretsMutator {} {} (.Pod podEnabled) = .returned (.Pod expPodEnabled) false none := by
  decide

theorem any_holdsReference_of_getElem? (cs : List Container) (i : Nat) (c : Container)
    (h : cs[i]? = some c) (hc : holdsReference c = true) : cs.any holdsReference = true := by
  rw [List.any_eq_true]
  exact ⟨c, List.getElem?_mem h, hc⟩

/-- C3 as stated fails: the pod of the second test case is enabled, has the four
annotations and a container with a reference; without its namespace and under a
context that carries no admission request, `VaultSecretsMutator` panics before
any container is touched, and the command of that container is still
`["user-command"]` after the call. -/
theorem C3_enabled_pod_without_namespace_panics :
    enabled (withoutNamespace podEnabled) = true ∧
    configured (withoutNamespace podEnabled) = true ∧
    (withoutNamespace podEnabled).Spec.Containers[0]? = some alpineContainer ∧
    holdsReference alpineContainer = true ∧
    VaultSecretsMutator {} {} (.Pod (withoutNamespace podEnabled)) =
      .panic (.Pod (withoutNamespace podEnabled))
        "invalid memory address or nil pointer dereference" ∧
    (VaultSecretsMutator {} {} (.Pod (withoutNamespace podEnabled))).object =
      .Pod (withoutNamespace podEnabled) ∧
    alpineContainer.Command = ["user-command"] ∧
    alpineContainer.Command ≠ ["/vault/vault-env"] := by
  decide

/-- C3, amended. In an enabled pod with the four annotations non-empty that has a
non-empty namespace, or is handled under a context that carries an admission
request, every container of the container list or of the init-container list
that holds a `vault:` reference has, after `VaultSecretsMutator`, the command
`["/vault/vault-env"]` and as args its original command followed by its
original args (an init container is found one position later, after the staging
container). -/
theorem C3_command_and_args_rewritten (viper : Viper) (ctx : Context) (pod : Pod)
    (hns : hasNamespace ctx pod = true)
    (hEn : enabled pod = true) (hCfg : configured pod = true) :
    ∃ spec : PodSpec,
      VaultSecretsMutator viper ctx (.Pod pod) =
        .returned (.Pod { pod with Spec := spec }) false none ∧
      (∀ (i : Nat) (c : Container), pod.Spec.Containers[i]? = some c →
        holdsReference c = true →
        ∃ c2 : Container, spec.Containers[i]? = some c2 ∧
          c2.Command = ["/vault/vault-env"] ∧ c2.Args = c.Command ++ c.Args) ∧
      (∀ (i : Nat) (c : Container), pod.Spec.InitContainers[i]? = some c →
        holdsReference c = true →
        ∃ c2 : Container, spec.InitContainers[i + 1]? = some c2 ∧
          c2.Command = ["/vault/vault-env"] ∧ c2.Args = c.Command ++ c.Args) := by
  refine ⟨_, VaultSecretsMutator_valid viper ctx pod hns hEn hCfg, ?_, ?_⟩
  · intro i c hi hc
    refine ⟨rewriteContainer c (parseVaultConfig (.Pod pod)), ?_, rfl, rfl⟩
    have hany := any_holdsReference_of_getElem? _ i c hi hc
    simp [MutatePodSpec_eq, hany, List.getElem?_map, hi, mutateOne, hc]
  · intro i c hi hc
    refine ⟨rewriteContainer c (parseVaultConfig (.Pod pod)), ?_, rfl, rfl⟩
    have hany := any_holdsReference_of_getElem? _ i c hi hc
    simp [MutatePodSpec_eq, hany, getInitContainers, List.getElem?_map, hi, mutateOne, hc]

/-- C3 (amended) at the pod of the second test case. -/
theorem C3_command_and_args_rewritten_witness :
    hasNamespace {} podEnabled = true ∧
    enabled podEnabled = true ∧ configured podEnabled = true ∧
    ∃ spec : PodSpec,
      VaultSecretsMutator {} {} (.Pod podEnabled) =
        .returned (.Pod { podEnabled with Spec := spec }) false none ∧
      (∀ (i : Nat) (c : Container), podEnabled.Spec.Containers[i]? = some c →
        holdsReference c = true →
        ∃ c2 : Container, spec.Containers[i]? = some c2 ∧
          c2.Command = ["/vault/vault-env"] ∧ c2.Args = c.Command ++ c.Args) ∧
      (∀ (i : Nat) (c : Container), podEnabled.Spec.InitContainers[i]? = some c →
        holdsReference c = true →
        ∃ c2 : Container, spec.InitContainers[i + 1]? = some c2 ∧
          c2.Command = ["/vault/vault-env"] ∧ c2.Args = c.Command ++ c.Args) :=
  ⟨by decide, by decide, by decide,
   C3_command_and_args_rewritten {} {} podEnabled (by decide) (by decide) (by decide)⟩

/-- C4. Every container that `mutateContainers` mutates (one holding a `vault:`
reference) ends with its original env list followed by exactly VAULT_ADDR,
VAULT_PATH, VAULT_ROLE (the values of the three annotations) and
VAULT_CAPATH = "/etc/tls/ca.pem", in this order; the original entries stay as
they are, whatever their names. -/
theorem C4_env_appended (obj : Object) (containers : List Container) (ns : String)
    (i : Nat) (c : Container) (hi : containers[i]? = some c)
    (hc : holdsReference c = true) :
    ∃ c2 : Container,
      (mutateContainers containers (parseVaultConfig obj) ns).1[i]? = some c2 ∧
      c2.Env = c.Env ++
        [ { Name := "VAULT_ADDR", Value := index obj.meta.Annotations "vault.security/vault-addr" },
          { Name := "VAULT_PATH", Value := index obj.meta.Annotations "vault.security/vault-path" },
          { Name := "VAULT_ROLE", Value := index obj.meta.Annotations "vault.security/vault-role" },
          { Name := "VAULT_CAPATH", Value := "/etc/tls/ca.pem" } ] := by
  refine ⟨rewriteContainer c (parseVaultConfig obj), ?_, rfl⟩
  simp [mutateContainers_eq, List.getElem?_map, hi, mutateOne, hc]

/-- C4 at the init containers of `podMixed`: the second one holds a reference and
already has a variable named VAULT_ADDR, which stays first in its list. -/
theorem C4_env_appended_witness :
    podMixed.Spec.InitContainers[1]? = some migrateContainer ∧
    holdsReference migrateContainer = true ∧
    ∃ c2 : Container,
      (mutateContainers podMixed.Spec.InitContainers (parseVaultConfig (.Pod podMixed))
        "default").1[1]? = some c2 ∧
      c2.Env = migrateContainer.Env ++
        [ { Name := "VAULT_ADDR",
            Value := index (Object.Pod podMixed).meta.Annotations "vault.security/vault-addr" },
          { Name := "VAULT_PATH",
            Value := index (Object.Pod podMixed).meta.Annotations "vault.security/vault-path" },
          { Name := "VAULT_ROLE",
            Value := index (Object.Pod podMixed).meta.Annotations "vault.security/vault-role" },
          { Name := "VAULT_CAPATH", Value := "/etc/tls/ca.pem" } ] :=
  ⟨by decide, by decide,
   C4_env_appended (.Pod podMixed) podMixed.Spec.InitContainers "default" 1 migrateContainer
     (by decide) (by decide)⟩

end webhookmain

namespace webhookmain

theorem map_mutateOne_of_no_reference (vaultConfig : VaultConfig) (cs : List Container)
    (h : ∀ c ∈ cs, holdsReference c = false) : cs.map (mutateOne vaultConfig) = cs := by
  induction cs with
  | nil => rfl
  | cons c t ih =>
    have hc : holdsReference c = false := h c (List.mem_cons_self c t)
    have ht : ∀ d ∈ t, holdsReference d = false := fun d hd => h d (List.mem_cons_of_mem c hd)
    simp [List.map_cons, mutateOne, hc, ih ht]

theorem mutateOne_Name (vaultConfig : VaultConfig) (c : Container) :
    (mutateOne vaultConfig c).Name = c.Name := by
  unfold mutateOne; split <;> rfl

theorem mutateOne_Image (vaultConfig : VaultConfig) (c : Container) :
    (mutateOne vaultConfig c).Image = c.Image := by
  unfold mutateOne; split <;> rfl

/-- C5 as stated fails: the enabled, fully annotated pod without any reference,
without its namespace and under a context that carries no admission request:
the call does not return `(false, nil)`, it panics before `MutatePodSpec` is
reached. -/
theorem C5_configured_pod_without_namespace_panics :
    enabled (withoutNamespace podNoReference) = true ∧
    configured (withoutNamespace podNoReference) = true ∧
    VaultSecretsMutator {} {} (.Pod (withoutNamespace podNoReference)) =
      .panic (.Pod (withoutNamespace podNoReference))
        "invalid memory address or nil pointer dereference" ∧
    (∀ spec : PodSpec, VaultSecretsMutator {} {} (.Pod (withoutNamespace podNoReference)) ≠
      .returned (.Pod { withoutNamespace podNoReference with Spec := spec }) false none) := by
  refine ⟨by decide, by decide, by decide, ?_⟩
  intro spec hret
  have hp : VaultSecretsMutator {} {} (.Pod (withoutNamespace podNoReference)) =
      .panic (.Pod (withoutNamespace podNoReference))
        "invalid memory address or nil pointer dereference" := by decide
  rw [hp] at hret
  exact absurd hret (by simp)

/-- C5, amended. For an enabled pod with the four annotations non-empty,
`MutatePodSpec` returns a nil error and a pod spec in which, when some init
container or container holds a `vault:` reference, the init-container list is
the staging container "init" followed by the pre-existing init containers in
their order (each as the loop of `mutateContainers` left it, names kept) and
the volume list is the original volumes followed by the memory-backed emptyDir
"vault-env" and the secret volume "tls" of the TLS annotation, and in which,
when none does, both lists are unchanged; and when the pod has a non-empty
namespace, or the context carries an admission request, `VaultSecretsMutator`
returns `(false, nil)` with that pod spec. -/
theorem C5_staging_artifacts_iff_reference (viper : Viper) (ctx : Context) (pod : Pod)
    (hEn : enabled pod = true) (hCfg : configured pod = true) :
    ∃ spec : PodSpec,
      (∀ ns : String,
        MutatePodSpec viper (.Pod pod) pod.Spec (parseVaultConfig (.Pod pod)) ns = (spec, none)) ∧
      (hasNamespace ctx pod = true →
        VaultSecretsMutator viper ctx (.Pod pod) =
          .returned (.Pod { pod with Spec := spec }) false none) ∧
      ((∃ c ∈ pod.Spec.InitContainers ++ pod.Spec.Containers, holdsReference c = true) →
        spec.InitContainers =
          { Name := "init", Image := viper.vault_env_image, ImagePullPolicy := "IfNotPresent"
            Command := ["sh", "-c", "cp /usr/local/bin/vault-env /vault/"]
            VolumeMounts := [ { Name := "vault-env", MountPath := "/vault" } ] } ::
            pod.Spec.InitContainers.map (mutateOne (parseVaultConfig (.Pod pod))) ∧
        (spec.InitContainers.drop 1).map (fun c => c.Name) =
          pod.Spec.InitContainers.map (fun c => c.Name) ∧
        spec.Volumes = pod.Spec.Volumes ++
          [ { Name := "vault-env", VolumeSource := .EmptyDir "Memory" },
            { Name := "tls", VolumeSource := .Secret
                (index pod.ObjectMeta.Annotations "vault.security/vault-tls-secret-name") } ]) ∧
      ((∀ c ∈ pod.Spec.InitContainers ++ pod.Spec.Containers, holdsReference c = false) →
        spec.InitContainers = pod.Spec.InitContainers ∧ spec.Volumes = pod.Spec.Volumes) := by
  refine ⟨(MutatePodSpec viper (.Pod pod) pod.Spec (parseVaultConfig (.Pod pod)) "").1,
    ?_, fun hns => VaultSecretsMutator_valid viper ctx pod hns hEn hCfg, ?_, ?_⟩
  · intro ns
    simp only [MutatePodSpec_eq]
  · rintro ⟨c, hmem, hc⟩
    have hany : (pod.Spec.InitContainers.any holdsReference ||
        pod.Spec.Containers.any holdsReference) = true := by
      rw [← List.any_append, List.any_eq_true]
      exact ⟨c, hmem, hc⟩
    simp only [MutatePodSpec_eq, hany, if_true]
    refine ⟨rfl, ?_, rfl⟩
    simp [getInitContainers, List.map_map, Function.comp_def, mutateOne_Name]
  · intro hnone
    have hany : (pod.Spec.InitContainers.any holdsReference ||
        pod.Spec.Containers.any holdsReference) = false := by
      rw [← List.any_append, List.any_eq_false]
      intro c hmem
      simp [hnone c hmem]
    have hinit : ∀ c ∈ pod.Spec.InitContainers, holdsReference c = false :=
      fun c hmem => hnone c (List.mem_append_left _ hmem)
    simp [MutatePodSpec_eq, hany, map_mutateOne_of_no_reference _ _ hinit]

/-- C5 (amended) at the pod of the second test case (one container with a
reference): the call returns `(false, nil)` with the pod the test expects. -/
theorem C5_staging_artifacts_iff_reference_witness :
    enabled podEnabled = true ∧ configured podEnabled = true ∧
    hasNamespace {} podEnabled = true ∧
    ∃ spec : PodSpec,
      (∀ ns : String,
        MutatePodSpec {} (.Pod podEnabled) podEnabled.Spec (parseVaultConfig (.Pod podEnabled))
          ns = (spec, none)) ∧
      VaultSecretsMutator {} {} (.Pod podEnabled) =
        .returned (.Pod { podEnabled with Spec := spec }) false none ∧
      spec.InitContainers =
        [ { Name := "init", Image := "innovia/vault-env:1.1.0", ImagePullPolicy := "IfNotPresent"
            Command := ["sh", "-c", "cp /usr/local/bin/vault-env /vault/"]
            VolumeMounts := [ { Name := "vault-env", MountPath := "/vault" } ] } ] ∧
      spec.Volumes =
        [ { Name := "vault-env", VolumeSource := .EmptyDir "Memory" },
          { Name := "tls", VolumeSource := .Secret "vault-consul-ca" } ] := by
  obtain ⟨spec, h1, h2, h3, _⟩ :=
    C5_staging_artifacts_iff_reference {} {} podEnabled (by decide) (by decide)
  have href : ∃ c ∈ podEnabled.Spec.InitContainers ++ podEnabled.Spec.Containers,
      holdsReference c = true := ⟨alpineContainer, by decide, by decide⟩
  obtain ⟨hinit, _, hvol⟩ := h3 href
  exact ⟨by decide, by decide, by decide, spec, h1, h2 (by decide), hinit, hvol⟩

/-- The pod without any reference keeps its init containers and volumes, the
mixed pod gets one staging container and the two volumes. -/
theorem staging_examples :
    VaultSecretsMutator {} {} (.Pod podNoReference) =
      .returned (.Pod podNoReference) false none ∧
    (∃ spec : PodSpec,
      VaultSecretsMutator {} {} (.Pod podMixed) =
        .returned (.Pod { podMixed with Spec := spec }) false none ∧
      spec.InitContainers.map (fun c => c.Name) = ["init", "sidecar", "migrate"] ∧
      spec.Volumes.map (fun v => v.Name) = ["data", "vault-env", "tls"]) := by
  refine ⟨by decide, _, rfl, ?_, ?_⟩ <;> decide

end webhookmain

namespace webhookmain

theorem getElem?_map_mutateOne_of_no_reference (vaultConfig : VaultConfig)
    (cs : List Container) (i : Nat) (c : Container) (hi : cs[i]? = some c)
    (hc : holdsReference c = false) : (cs.map (mutateOne vaultConfig))[i]? = some c := by
  simp [List.getElem?_map, hi, mutateOne, hc]

/-- `MutatePodSpec` leaves every container without a reference as it is: a regular
container at its position, an init container `k` positions later, `k` being
the number (0 or 1) of staging containers put in front. -/
theorem MutatePodSpec_untouched (viper : Viper) (obj : Object) (podSpec : PodSpec)
    (vaultConfig : VaultConfig) (ns : String) :
    (∀ (i : Nat) (c : Container), podSpec.Containers[i]? = some c →
      holdsReference c = false →
      (MutatePodSpec viper obj podSpec vaultConfig ns).1.Containers[i]? = some c) ∧
    ∃ k : Nat, k ≤ 1 ∧
      (MutatePodSpec viper obj podSpec vaultConfig ns).1.InitContainers.length =
        podSpec.InitContainers.length + k ∧
      ∀ (i : Nat) (c : Container), podSpec.InitContainers[i]? = some c →
        holdsReference c = false →
        (MutatePodSpec viper obj podSpec vaultConfig ns).1.InitContainers[i + k]? = some c := by
  refine ⟨?_, ?_⟩
  · intro i c hi hc
    rw [MutatePodSpec_eq]
    split <;> exact getElem?_map_mutateOne_of_no_reference _ _ i c hi hc
  · rw [MutatePodSpec_eq]
    split
    · refine ⟨1, le_refl 1, by simp [getInitContainers], ?_⟩
      intro i c hi hc
      simpa [getInitContainers] using
        getElem?_map_mutateOne_of_no_reference _ _ i c hi hc
    · refine ⟨0, Nat.zero_le 1, by simp, ?_⟩
      intro i c hi hc
      simpa using getElem?_map_mutateOne_of_no_reference _ _ i c hi hc

/-- The pod after a call of `VaultSecretsMutator` is the input pod, or the input
pod with the spec that `MutatePodSpec` gives. -/
theorem VaultSecretsMutator_object (viper : Viper) (ctx : Context) (pod : Pod) :
    (VaultSecretsMutator viper ctx (.Pod pod)).object = .Pod pod ∨
    (VaultSecretsMutator viper ctx (.Pod pod)).object =
      .Pod { pod with
        Spec := (MutatePodSpec viper (.Pod pod) pod.Spec (parseVaultConfig (.Pod pod)) "").1 } := by
  by_cases hns : hasNamespace ctx pod = true
  · by_cases hEn : enabled pod = true
    · by_cases hCfg : configured pod = true
      · right
        rw [VaultSecretsMutator_valid viper ctx pod hns hEn hCfg]
        rfl
      · have hMiss : index pod.ObjectMeta.Annotations "vault.security/vault-addr" = "" ∨
            index pod.ObjectMeta.Annotations "vault.security/vault-path" = "" ∨
            index pod.ObjectMeta.Annotations "vault.security/vault-role" = "" ∨
            index pod.ObjectMeta.Annotations "vault.security/vault-tls-secret-name" = "" := by
          simp only [configured, Bool.and_eq_true, bne_iff_ne, ne_eq] at hCfg
          by_contra hcon
          simp only [not_or] at hcon
          exact hCfg ⟨⟨⟨hcon.1, hcon.2.1⟩, hcon.2.2.1⟩, hcon.2.2.2⟩
        obtain ⟨e, he⟩ := VaultSecretsMutator_rejects viper ctx pod hns hEn hMiss
        left
        rw [he]
        rfl
    · simp only [Bool.not_eq_true] at hEn
      left
      rw [VaultSecretsMutator_disabled viper ctx pod hns hEn]
      rfl
  · simp only [Bool.not_eq_true] at hns
    left
    rw [VaultSecretsMutator_panics viper ctx pod hns]
    rfl

/-- C6. For every pod and every container of it (init or regular) none of whose
env values starts with `vault:`, the container in the pod as a call of
`VaultSecretsMutator` leaves it (the call returning or not) is equal to the
container before, field for field, also when other containers of the pod are
rewritten; a regular container keeps its position, an init container is found
`k` positions later, `k` being the number (0 or 1) of staging containers put
in front. The same holds of `MutatePodSpec` on the pod spec, whatever the
configuration. -/
theorem C6_container_without_reference_untouched (viper : Viper) (ctx : Context) (pod : Pod) :
    (∃ spec : PodSpec,
      (VaultSecretsMutator viper ctx (.Pod pod)).object = .Pod { pod with Spec := spec } ∧
      (∀ (i : Nat) (c : Container), pod.Spec.Containers[i]? = some c →
        holdsReference c = false → spec.Containers[i]? = some c) ∧
      ∃ k : Nat, k ≤ 1 ∧
        spec.InitContainers.length = pod.Spec.InitContainers.length + k ∧
        ∀ (i : Nat) (c : Container), pod.Spec.InitContainers[i]? = some c →
          holdsReference c = false → spec.InitContainers[i + k]? = some c) ∧
    (∀ (obj : Object) (vaultConfig : VaultConfig) (ns : String),
      (∀ (i : Nat) (c : Container), pod.Spec.Containers[i]? = some c →
        holdsReference c = false →
        (MutatePodSpec viper obj pod.Spec vaultConfig ns).1.Containers[i]? = some c) ∧
      ∃ k : Nat, k ≤ 1 ∧
        (MutatePodSpec viper obj pod.Spec vaultConfig ns).1.InitContainers.length =
          pod.Spec.InitContainers.length + k ∧
        ∀ (i : Nat) (c : Container), pod.Spec.InitContainers[i]? = some c →
          holdsReference c = false →
          (MutatePodSpec viper obj pod.Spec vaultConfig ns).1.InitContainers[i + k]? =
            some c) := by
  refine ⟨?_, fun obj vaultConfig ns => MutatePodSpec_untouched viper obj pod.Spec vaultConfig ns⟩
  rcases VaultSecretsMutator_object viper ctx pod with h | h
  · exact ⟨pod.Spec, h, fun _ _ hi _ => hi, 0, Nat.zero_le 1, rfl, fun _ _ hi _ => hi⟩
  · exact ⟨_, h, MutatePodSpec_untouched viper (.Pod pod) pod.Spec _ ""⟩

/-- C6 on the mixed pod: the sidecar containers stay as they are next to the
rewritten ones. -/
theorem untouched_example :
    ∃ spec : PodSpec,
      VaultSecretsMutator {} {} (.Pod podMixed) =
        .returned (.Pod { podMixed with Spec := spec }) false none ∧
      spec.Containers[0]? = some sidecarContainer ∧
      spec.Containers[1]? ≠ some alpineContainer ∧
      spec.InitContainers[1]? = some sidecarContainer ∧
      spec.InitContainers[2]? ≠ some migrateContainer := by
  refine ⟨_, rfl, ?_, ?_, ?_, ?_⟩ <;> decide

end webhookmain

/-! # Properties of the runtime -/

namespace strings

theorem Index_eq_none_of_not_mem (s : List Char) (h : '=' ∉ s) : Index ['='] s = none := by
  induction s with
  | nil => simp [Index, List.isPrefixOf]
  | cons c cs ih =>
    have hc : ('=' == c) = false := by
      simp only [beq_eq_false_iff_ne, ne_eq]
      intro he
      exact h (he ▸ List.mem_cons_self _ _)
    have hcs : '=' ∉ cs := fun hm => h (List.mem_cons_of_mem _ hm)
    simp [Index, List.isPrefixOf, hc, ih hcs]

theorem Index_append_of_not_mem (a b : List Char) (h : '=' ∉ a) :
    Index ['='] (a ++ '=' :: b) = some a.length := by
  induction a with
  | nil => simp [Index, List.isPrefixOf]
  | cons c cs ih =>
    have hc : ('=' == c) = false := by
      simp only [beq_eq_false_iff_ne, ne_eq]
      intro he
      exact h (he ▸ List.mem_cons_self _ _)
    have hcs : '=' ∉ cs := fun hm => h (List.mem_cons_of_mem _ hm)
    simp [Index, List.isPrefixOf, hc, ih hcs]

theorem exists_first_occurrence (c : Char) (l : List Char) (h : c ∈ l) :
    ∃ a b, l = a ++ c :: b ∧ c ∉ a := by
  induction l with
  | nil => simp at h
  | cons d t ih =>
    by_cases hd : c = d
    · exact ⟨[], t, by simp [hd], by simp⟩
    · have ht : c ∈ t := by
        rcases List.mem_cons.mp h with h1 | h1
        · exact absurd h1 hd
        · exact h1
      obtain ⟨a, b, hab, hna⟩ := ih ht
      refine ⟨d :: a, b, by simp [hab], ?_⟩
      intro hm
      rcases List.mem_cons.mp hm with h1 | h1
      · exact hd h1
      · exact hna h1

theorem SplitN_of_not_mem (s : String) (h : '=' ∉ s.data) : SplitN s "=" 2 = [s] := by
  have hi := Index_eq_none_of_not_mem s.data h
  have hsep : ("=" : String).data = ['='] := rfl
  have hne : ("=" : String) ≠ "" := by decide
  simp [SplitN, hne, genSplit, hsep, hi]

theorem SplitN_of_append (a b : List Char) (h : '=' ∉ a) :
    SplitN (String.mk (a ++ '=' :: b)) "=" 2 = [String.mk a, String.mk b] := by
  have hi := Index_append_of_not_mem a b h
  have hsep : ("=" : String).data = ['='] := rfl
  have hne : ("=" : String) ≠ "" := by decide
  simp [SplitN, hne, genSplit, hsep, hi]

/-- The two shapes of `strings.SplitN(env, "=", 2)`: the entry itself when it has
no `=`, else the text before the first `=` and the text after it. -/
theorem SplitN_cases (env : String) :
    ('=' ∉ env.data ∧ SplitN env "=" 2 = [env]) ∨
    ∃ a b : List Char, env = String.mk (a ++ '=' :: b) ∧ '=' ∉ a ∧
      SplitN env "=" 2 = [String.mk a, String.mk b] := by
  by_cases h : '=' ∈ env.data
  · obtain ⟨a, b, hab, hna⟩ := exists_first_occurrence '=' env.data h
    have henv : env = String.mk (a ++ '=' :: b) := by
      rw [← hab]
    exact Or.inr ⟨a, b, henv, hna, henv ▸ SplitN_of_append a b hna⟩
  · exact Or.inl ⟨h, SplitN_of_not_mem env h⟩

theorem SplitN_join (name value : String) (h : '=' ∉ name.data) :
    SplitN (name ++ "=" ++ value) "=" 2 = [name, value] := by
  have e : name ++ "=" ++ value = String.mk (name.data ++ '=' :: value.data) := by
    apply String.ext
    simp [String.data_append]
  rw [e, SplitN_of_append _ _ h]

end strings

namespace vaultenv

theorem SplitN_examples :
    strings.SplitN "A=b=c" "=" 2 = ["A", "b=c"] ∧
    strings.SplitN "A" "=" 2 = ["A"] ∧
    strings.SplitN "" "=" 2 = [""] ∧
    strings.SplitN "=x" "=" 2 = ["", "x"] ∧
    strings.SplitN "abc" "" 2 = ["a", "bc"] ∧
    strings.SplitN "a,b,c" "," 5 = ["a", "b", "c"] ∧
    strings.TrimPrefix "vault:KEY" "vault:" = "KEY" ∧
    Getenv ["A=1", "VAULT_ROLE=r", "VAULT_ROLE=s"] "VAULT_ROLE" = "r" := by
  decide

/-- What `sanitizedEnviron.append` does when it returns. -/
theorem append_done (acc out : List String) (name : String) (ivalue : Value)
    (h : append acc (.str name) ivalue = .done out) :
    ∃ value : String, ivalue = .str value ∧
      out = if (sanitizeEnvmap.lookup name).isSome then acc else acc ++ [name ++ "=" ++ value] := by
  cases ivalue with
  | str value =>
    refine ⟨value, rfl, ?_⟩
    simp only [append] at h
    split at h
    · next hs => rw [if_pos hs]; injection h with h; exact h.symm
    · next hs => rw [if_neg hs]; injection h with h; exact h.symm
  | num n => simp [append] at h
  | bool b => simp [append] at h
  | null => simp [append] at h
  | arr items => simp [append] at h
  | obj fields => simp [append] at h

/-- What one round of the loop does when it goes on to the next entry. -/
theorem processEntry_done (json : String → List (String × Value)) (secret : Secret)
    (acc out : List String) (env : String)
    (h : processEntry json secret acc env = .done out) :
    ∃ name value resolved : String,
      strings.SplitN env "=" 2 = [name, value] ∧ '=' ∉ name.data ∧
      env = name ++ "=" ++ value ∧
      (if strings.HasPrefix value "vault:" then
        (data json secret).lookup (strings.TrimPrefix value "vault:") = some (.str resolved)
       else resolved = value) ∧
      out = if (sanitizeEnvmap.lookup name).isSome then acc
            else acc ++ [name ++ "=" ++ resolved] := by
  rcases strings.SplitN_cases env with ⟨_, hs⟩ | ⟨a, b, henv, hna, hs⟩
  · simp [processEntry, hs] at h
  · have hjoin : env = String.mk a ++ "=" ++ String.mk b := by
      rw [henv]; apply String.ext; simp [String.data_append]
    simp only [processEntry, hs] at h
    by_cases hp : strings.HasPrefix (String.mk b) "vault:" = true
    · simp only [hp, if_true] at h
      cases hl : (data json secret).lookup (strings.TrimPrefix (String.mk b) "vault:") with
      | none => simp [hl] at h
      | some v =>
        simp only [hl] at h
        obtain ⟨value, hv, hout⟩ := append_done _ _ _ _ h
        refine ⟨String.mk a, String.mk b, value, hs, hna, hjoin, ?_, hout⟩
        rw [if_pos hp, hl, hv]
    · simp only [Bool.not_eq_true] at hp
      simp only [hp, Bool.false_eq_true, if_false] at h
      obtain ⟨value, hv, hout⟩ := append_done _ _ _ _ h
      injection hv with hv
      refine ⟨String.mk a, String.mk b, value, hs, hna, hjoin, ?_, hout⟩
      rw [hp]
      simp [hv]

end vaultenv

namespace vaultenv

/-- A property of the entries is kept by the loop when every entry the loop can
append has it. -/
theorem processEnviron_forall (json : String → List (String × Value)) (secret : Secret)
    (Q : String → Prop)
    (hQ : ∀ name resolved : String, '=' ∉ name.data →
      (sanitizeEnvmap.lookup name).isSome = false → Q (name ++ "=" ++ resolved))
    (environ : List String) :
    ∀ acc out : List String, processEnviron json secret environ acc = .done out →
      (∀ e ∈ acc, Q e) → ∀ e ∈ out, Q e := by
  induction environ with
  | nil =>
    intro acc out h hacc
    simp only [processEnviron] at h
    injection h with h
    exact h ▸ hacc
  | cons env rest ih =>
    intro acc out h hacc
    simp only [processEnviron] at h
    cases hstep : processEntry json secret acc env with
    | stop e => simp [hstep] at h
    | done acc2 =>
      simp only [hstep] at h
      refine ih acc2 out h ?_
      obtain ⟨name, value, resolved, _, hname, _, _, hacc2⟩ :=
        processEntry_done json secret acc acc2 env hstep
      by_cases hs : (sanitizeEnvmap.lookup name).isSome = true
      · rw [if_pos hs] at hacc2
        exact hacc2 ▸ hacc
      · rw [if_neg hs] at hacc2
        simp only [Bool.not_eq_true] at hs
        intro e he
        rw [hacc2] at he
        rcases List.mem_append.mp he with h1 | h1
        · exact hacc e h1
        · rw [List.mem_singleton.mp h1]
          exact hQ name resolved hname hs

/-- A name that is not a key of `sanitizeEnvmap` is none of the eighteen names. -/
theorem not_mem_of_lookup_sanitizeEnvmap (name : String)
    (h : (sanitizeEnvmap.lookup name).isSome = false) :
    name ∉ ["VAULT_TOKEN", "VAULT_ADDR", "VAULT_CACERT", "VAULT_CAPATH", "VAULT_CLIENT_CERT",
      "VAULT_CLIENT_KEY", "VAULT_CLIENT_TIMEOUT", "VAULT_CLUSTER_ADDR", "VAULT_MAX_RETRIES",
      "VAULT_REDIRECT_ADDR", "VAULT_SKIP_VERIFY", "VAULT_TLS_SERVER_NAME", "VAULT_CLI_NO_COLOR",
      "VAULT_RATE_LIMIT", "VAULT_NAMESPACE", "VAULT_MFA", "VAULT_ROLE", "VAULT_PATH"] := by
  intro hmem
  simp only [List.mem_cons, List.mem_singleton, List.not_mem_nil, or_false] at hmem
  rcases hmem with h1 | h1 | h1 | h1 | h1 | h1 | h1 | h1 | h1 | h1 | h1 | h1 | h1 | h1 | h1 | h1 |
    h1 | h1 <;> (subst h1; exact absurd h (by decide))

/-- C7. Whenever the sanitizing loop completes, every entry of the sanitized
environment is `name=value` with a name (the text before its first `=`) that
is none of the eighteen names of the allow-list, whatever the value of the
inherited entry was, a `vault:` reference included. -/
theorem C7_no_allow_listed_name_in_output (json : String → List (String × Value))
    (secret : Secret) (environ sanitized : List String)
    (h : processEnviron json secret environ [] = .done sanitized) :
    ∀ e ∈ sanitized, ∃ name value : String,
      strings.SplitN e "=" 2 = [name, value] ∧
      name ∉ ["VAULT_TOKEN", "VAULT_ADDR", "VAULT_CACERT", "VAULT_CAPATH", "VAULT_CLIENT_CERT",
        "VAULT_CLIENT_KEY", "VAULT_CLIENT_TIMEOUT", "VAULT_CLUSTER_ADDR", "VAULT_MAX_RETRIES",
        "VAULT_REDIRECT_ADDR", "VAULT_SKIP_VERIFY", "VAULT_TLS_SERVER_NAME",
        "VAULT_CLI_NO_COLOR", "VAULT_RATE_LIMIT", "VAULT_NAMESPACE", "VAULT_MFA", "VAULT_ROLE",
        "VAULT_PATH"] := by
  refine processEnviron_forall json secret _ ?_ environ [] sanitized h (by simp)
  intro name resolved hname hs
  exact ⟨name, resolved, strings.SplitN_join name resolved hname,
    not_mem_of_lookup_sanitizeEnvmap name hs⟩

/-- C7 on the example environment: the loop completes with two entries, the
entry VAULT_TOKEN with a resolvable reference is not among them. -/
theorem C7_no_allow_listed_name_in_output_witness :
    processEnviron noObject flatSecret exampleEnviron [] = .done ["HOME=/root", "API_KEY=xyz"] ∧
    ∀ e ∈ ["HOME=/root", "API_KEY=xyz"], ∃ name value : String,
      strings.SplitN e "=" 2 = [name, value] ∧
      name ∉ ["VAULT_TOKEN", "VAULT_ADDR", "VAULT_CACERT", "VAULT_CAPATH", "VAULT_CLIENT_CERT",
        "VAULT_CLIENT_KEY", "VAULT_CLIENT_TIMEOUT", "VAULT_CLUSTER_ADDR", "VAULT_MAX_RETRIES",
        "VAULT_REDIRECT_ADDR", "VAULT_SKIP_VERIFY", "VAULT_TLS_SERVER_NAME",
        "VAULT_CLI_NO_COLOR", "VAULT_RATE_LIMIT", "VAULT_NAMESPACE", "VAULT_MFA", "VAULT_ROLE",
        "VAULT_PATH"] :=
  ⟨by decide,
   C7_no_allow_listed_name_in_output noObject flatSecret exampleEnviron _ (by decide)⟩

end vaultenv

namespace vaultenv

/-- The entries already in the list stay in it until the loop completes. -/
theorem processEnviron_mono (json : String → List (String × Value)) (secret : Secret)
    (environ : List String) :
    ∀ acc out : List String, processEnviron json secret environ acc = .done out →
      ∀ e ∈ acc, e ∈ out := by
  induction environ with
  | nil =>
    intro acc out h e he
    simp only [processEnviron] at h
    injection h with h
    exact h ▸ he
  | cons env rest ih =>
    intro acc out h e he
    simp only [processEnviron] at h
    cases hstep : processEntry json secret acc env with
    | stop x => simp [hstep] at h
    | done acc2 =>
      simp only [hstep] at h
      refine ih acc2 out h e ?_
      obtain ⟨name, value, resolved, _, _, _, _, hacc2⟩ :=
        processEntry_done json secret acc acc2 env hstep
      rw [hacc2]
      split
      · exact he
      · exact List.mem_append_left _ he

/-- When the loop completes, every entry of the inherited environment has been
split and resolved, and is in the output unless its name is allow-listed. -/
theorem processEnviron_mem (json : String → List (String × Value)) (secret : Secret)
    (environ : List String) :
    ∀ acc out : List String, processEnviron json secret environ acc = .done out →
      ∀ env ∈ environ, ∃ name value resolved : String,
        strings.SplitN env "=" 2 = [name, value] ∧
        (if strings.HasPrefix value "vault:" then
          (data json secret).lookup (strings.TrimPrefix value "vault:") = some (.str resolved)
         else resolved = value) ∧
        ((sanitizeEnvmap.lookup name).isSome = false → name ++ "=" ++ resolved ∈ out) := by
  induction environ with
  | nil => intro acc out _ env henv; simp at henv
  | cons e rest ih =>
    intro acc out h env henv
    simp only [processEnviron] at h
    cases hstep : processEntry json secret acc e with
    | stop x => simp [hstep] at h
    | done acc2 =>
      simp only [hstep] at h
      rcases List.mem_cons.mp henv with h1 | h1
      · obtain ⟨name, value, resolved, hsplit, _, _, hres, hacc2⟩ :=
          processEntry_done json secret acc acc2 e hstep
        refine ⟨name, value, resolved, h1 ▸ hsplit, hres, ?_⟩
        intro hs
        refine processEnviron_mono json secret rest acc2 out h _ ?_
        rw [hacc2, hs]
        simp
      · exact ih acc2 out h env h1

end vaultenv

namespace vaultenv

theorem lookup_isSome_eq_false_of_not_mem (name : String)
    (h : name ∉ sanitizeEnvmap.map Prod.fst) : (sanitizeEnvmap.lookup name).isSome = false := by
  cases hl : (sanitizeEnvmap.lookup name).isSome with
  | false => rfl
  | true =>
    exfalso
    obtain ⟨p, hp, hk⟩ := List.lookup_isSome_iff.mp hl
    have hk2 : name = p.1 := by simpa using hk
    exact h (List.mem_map.mpr ⟨p, hp, hk2.symm⟩)

/-- C8 as stated fails: in the example environment the entry
`VAULT_TOKEN=vault:TOKEN` is a reference whose key `TOKEN` exists in the secret
document (value `s.abc`), the loop completes, and the sanitized environment does
not contain `VAULT_TOKEN=s.abc`. -/
theorem C8_reference_under_allow_listed_name_dropped :
    "VAULT_TOKEN=vault:TOKEN" ∈ exampleEnviron ∧
    strings.SplitN "VAULT_TOKEN=vault:TOKEN" "=" 2 = ["VAULT_TOKEN", "vault:TOKEN"] ∧
    strings.HasPrefix "vault:TOKEN" "vault:" = true ∧
    ((data noObject flatSecret).lookup (strings.TrimPrefix "vault:TOKEN" "vault:")).isSome = true ∧
    ∃ sanitized : List String,
      processEnviron noObject flatSecret exampleEnviron [] = .done sanitized ∧
      "VAULT_TOKEN=s.abc" ∉ sanitized := by
  refine ⟨by decide, by decide, by decide, by decide, ["HOME=/root", "API_KEY=xyz"], ?_, ?_⟩ <;>
    decide

/-- C8, amended. When the sanitizing loop completes, every inherited entry
`name=value` whose value starts with `vault:`, whose key (the value without the
prefix) exists in the secret document and whose name is not a key of
`sanitizeEnvmap` is in the sanitized environment as `name=<the value of the
document for that key>`, that value being a string. -/
theorem C8_reference_resolved (json : String → List (String × Value)) (secret : Secret)
    (environ sanitized : List String) (env name value : String) (v : Value)
    (hdone : processEnviron json secret environ [] = .done sanitized)
    (hin : env ∈ environ)
    (hsplit : strings.SplitN env "=" 2 = [name, value])
    (hpre : strings.HasPrefix value "vault:" = true)
    (hkey : (data json secret).lookup (strings.TrimPrefix value "vault:") = some v)
    (hname : name ∉ sanitizeEnvmap.map Prod.fst) :
    ∃ resolved : String, v = .str resolved ∧ name ++ "=" ++ resolved ∈ sanitized := by
  obtain ⟨name2, value2, resolved, hsplit2, hres, hout⟩ :=
    processEnviron_mem json secret environ [] sanitized hdone env hin
  rw [hsplit] at hsplit2
  simp only [List.cons.injEq, and_true] at hsplit2
  obtain ⟨hn, hv⟩ := hsplit2
  subst hn hv
  rw [if_pos hpre, hkey] at hres
  injection hres with hres
  exact ⟨resolved, hres, hout (lookup_isSome_eq_false_of_not_mem name hname)⟩

/-- C8 (amended) on the example environment, for the flat and for the versioned
document of the specification: `API_KEY=vault:API_KEY` becomes `API_KEY=xyz`. -/
theorem C8_reference_resolved_witness :
    (processEnviron noObject flatSecret exampleEnviron [] = .done ["HOME=/root", "API_KEY=xyz"] ∧
      ∃ resolved : String, Value.str "xyz" = .str resolved ∧
        "API_KEY" ++ "=" ++ resolved ∈ ["HOME=/root", "API_KEY=xyz"]) ∧
    (processEnviron noObject versionedSecret exampleEnviron [] =
        .done ["HOME=/root", "API_KEY=xyz"] ∧
      ∃ resolved : String, Value.str "xyz" = .str resolved ∧
        "API_KEY" ++ "=" ++ resolved ∈ ["HOME=/root", "API_KEY=xyz"]) :=
  ⟨⟨by decide,
    C8_reference_resolved noObject flatSecret exampleEnviron _ "API_KEY=vault:API_KEY"
      "API_KEY" "vault:API_KEY" (.str "xyz") (by decide) (by decide) (by decide) (by decide)
      (by rfl) (by decide)⟩,
   ⟨by decide,
    C8_reference_resolved noObject versionedSecret exampleEnviron _ "API_KEY=vault:API_KEY"
      "API_KEY" "vault:API_KEY" (.str "xyz") (by decide) (by decide) (by decide) (by decide)
      (by rfl) (by decide)⟩⟩

end vaultenv

namespace vaultenv

/-- The loop reads the secret and the parser only through the map `data`. -/
theorem processEnviron_congr (json1 json2 : String → List (String × Value)) (s1 s2 : Secret)
    (h : data json1 s1 = data json2 s2) (environ : List String) :
    ∀ acc : List String,
      processEnviron json1 s1 environ acc = processEnviron json2 s2 environ acc := by
  have hstep : ∀ (acc : List String) (env : String),
      processEntry json1 s1 acc env = processEntry json2 s2 acc env := by
    intro acc env
    simp only [processEntry, h]
  induction environ with
  | nil => intro acc; rfl
  | cons env rest ih =>
    intro acc
    simp only [processEnviron, hstep]
    cases processEntry json2 s2 acc env with
    | stop e => rfl
    | done acc2 => exact ih acc2

theorem lookup_map_str (m : List (String × String)) (k : String) :
    (m.map (fun kv => (kv.1, Value.str kv.2))).lookup k = (m.lookup k).map Value.str := by
  induction m with
  | nil => rfl
  | cons kv t ih =>
    obtain ⟨k2, v2⟩ := kv
    simp only [List.map_cons, List.lookup_cons]
    cases k == k2 with
    | true => rfl
    | false => exact ih

theorem data_versionedDocument (json : String → List (String × Value))
    (m : List (String × String)) :
    data json (versionedDocument m) = m.map (fun kv => (kv.1, Value.str kv.2)) := by
  simp [data, versionedDocument, ToStringMap, List.lookup_cons]

theorem data_flatDocument (json : String → List (String × Value))
    (m : List (String × String)) (hm : m.lookup "data" = none) :
    data json (flatDocument m) = m.map (fun kv => (kv.1, Value.str kv.2)) := by
  simp only [data, flatDocument, lookup_map_str, hm, Option.map_none', ToStringMap]

theorem data_of_lookup (json : String → List (String × Value)) (secret : Secret)
    (v2Data : Value) (h : secret.Data.lookup "data" = some v2Data) :
    data json secret = ToStringMap json v2Data := by
  simp only [data, h]

end vaultenv

namespace vaultenv

/-- C9 as stated fails for a map that has a key "data": with
m = {"data": "x", "API_KEY": "xyz"} and the entry `API_KEY=vault:API_KEY`, the
flat document looks the key up in what the string "x" parses to (nothing) and
exits with "key not found", the versioned document gives `API_KEY=xyz`; and
whatever the JSON parser of the cast library returns, the two shapes cannot
agree on every map and environment. -/
theorem C9_flat_map_with_data_key_differs :
    (processEnviron noObject (flatDocument [("data", "x"), ("API_KEY", "xyz")])
        ["API_KEY=vault:API_KEY"] [] = .stop (.exit 1 "key not found: API_KEY") ∧
      processEnviron noObject (versionedDocument [("data", "x"), ("API_KEY", "xyz")])
        ["API_KEY=vault:API_KEY"] [] = .done ["API_KEY=xyz"]) ∧
    ¬ ∃ json : String → List (String × Value),
      ∀ (m : List (String × String)) (environ : List String),
        processEnviron json (flatDocument m) environ [] =
          processEnviron json (versionedDocument m) environ [] := by
  refine ⟨⟨by decide, by decide⟩, ?_⟩
  rintro ⟨json, h⟩
  have h1 := h [("data", "x"), ("K", "v")] ["A=vault:K"]
  have h2 := h [("data", "x"), ("K", "w")] ["A=vault:K"]
  have hflat : processEnviron json (flatDocument [("data", "x"), ("K", "v")]) ["A=vault:K"] [] =
      processEnviron json (flatDocument [("data", "x"), ("K", "w")]) ["A=vault:K"] [] :=
    processEnviron_congr json json _ _ rfl _ []
  have hv1 : processEnviron json (versionedDocument [("data", "x"), ("K", "v")])
      ["A=vault:K"] [] = .done ["A=v"] := by
    rw [processEnviron_congr json noObject _ (versionedDocument [("data", "x"), ("K", "v")])
      (by rw [data_versionedDocument, data_versionedDocument])]
    decide
  have hv2 : processEnviron json (versionedDocument [("data", "x"), ("K", "w")])
      ["A=vault:K"] [] = .done ["A=w"] := by
    rw [processEnviron_congr json noObject _ (versionedDocument [("data", "x"), ("K", "w")])
      (by rw [data_versionedDocument, data_versionedDocument])]
    decide
  rw [hv1] at h1
  rw [hv2, ← hflat, h1] at h2
  exact absurd h2 (by decide)

/-- C9, amended. For every string-to-string map m without a key "data" and every
inherited environment, the loop gives the same outcome (the same sanitized
environment, or the same end of the process) against the flat document m and
against the versioned document with m under "data"; and whenever the fetched
document has a field "data", the outcome depends on that field only: the other
top-level fields are never looked at. -/
theorem C9_flat_and_versioned_agree (json : String → List (String × Value))
    (m : List (String × String)) (environ : List String)
    (hm : m.lookup "data" = none) :
    processEnviron json (flatDocument m) environ [] =
      processEnviron json (versionedDocument m) environ [] ∧
    ∀ (secret : Secret) (v2Data : Value), secret.Data.lookup "data" = some v2Data →
      data json secret = ToStringMap json v2Data ∧
      processEnviron json secret environ [] =
        processEnviron json { Data := [("data", v2Data)] } environ [] := by
  refine ⟨processEnviron_congr json json _ _ ?_ environ [], ?_⟩
  · rw [data_flatDocument json m hm, data_versionedDocument]
  · intro secret v2Data h
    refine ⟨data_of_lookup json secret v2Data h, processEnviron_congr json json _ _ ?_ environ []⟩
    rw [data_of_lookup json secret v2Data h]
    simp [data, List.lookup_cons]

/-- C9 (amended) on the document of the specification: `{"API_KEY":"xyz"}` and
`{"data":{"API_KEY":"xyz"}}` both turn `API_KEY=vault:API_KEY` into `API_KEY=xyz`. -/
theorem C9_flat_and_versioned_agree_witness :
    [("API_KEY", "xyz")].lookup "data" = none ∧
    processEnviron noObject (flatDocument [("API_KEY", "xyz")]) ["API_KEY=vault:API_KEY"] [] =
      .done ["API_KEY=xyz"] ∧
    processEnviron noObject (versionedDocument [("API_KEY", "xyz")]) ["API_KEY=vault:API_KEY"] [] =
      .done ["API_KEY=xyz"] ∧
    processEnviron noObject (flatDocument [("API_KEY", "xyz")]) ["API_KEY=vault:API_KEY"] [] =
      processEnviron noObject (versionedDocument [("API_KEY", "xyz")])
        ["API_KEY=vault:API_KEY"] [] :=
  ⟨by decide, by decide, by decide,
   (C9_flat_and_versioned_agree noObject [("API_KEY", "xyz")] ["API_KEY=vault:API_KEY"]
     (by decide)).1⟩

end vaultenv

namespace vaultenv

theorem append_stop (acc : List String) (iname ivalue : Value) (e : Exit)
    (h : append acc iname ivalue = .stop e) : e.status = some 2 := by
  unfold append at h
  split at h
  · split at h <;> simp at h
  · injection h with h
    rw [← h]; rfl

/-- A round of the loop ends the process only through `os.Exit(1)` or a panic. -/
theorem processEntry_stop (json : String → List (String × Value)) (secret : Secret)
    (acc : List String) (env : String) (e : Exit)
    (h : processEntry json secret acc env = .stop e) :
    e.status = some 1 ∨ e.status = some 2 := by
  simp only [processEntry] at h
  split at h
  · injection h with h; right; rw [← h]; rfl
  · injection h with h; right; rw [← h]; rfl
  · split at h
    · split at h
      · exact Or.inr (append_stop _ _ _ _ h)
      · injection h with h; left; rw [← h]; rfl
    · exact Or.inr (append_stop _ _ _ _ h)

theorem processEnviron_stop (json : String → List (String × Value)) (secret : Secret)
    (environ : List String) :
    ∀ (acc : List String) (e : Exit), processEnviron json secret environ acc = .stop e →
      e.status = some 1 ∨ e.status = some 2 := by
  induction environ with
  | nil => intro acc e h; simp [processEnviron] at h
  | cons env rest ih =>
    intro acc e h
    simp only [processEnviron] at h
    cases hstep : processEntry json secret acc env with
    | stop x =>
      simp only [hstep] at h
      injection h with h
      exact h ▸ processEntry_stop json secret acc env x hstep
    | done acc2 =>
      simp only [hstep] at h
      exact ih acc2 e h

/-- The loop over a list in two parts. -/
theorem processEnviron_append (json : String → List (String × Value)) (secret : Secret)
    (pre rest : List String) :
    ∀ acc : List String, processEnviron json secret (pre ++ rest) acc =
      match processEnviron json secret pre acc with
      | .stop e => .stop e
      | .done acc2 => processEnviron json secret rest acc2 := by
  induction pre with
  | nil => intro acc; rfl
  | cons env t ih =>
    intro acc
    simp only [List.cons_append, processEnviron]
    cases processEntry json secret acc env with
    | stop e => rfl
    | done acc2 => exact ih acc2

/-- A round of the loop on an entry with a `=` whose reference, if it is one,
resolves to a string goes on to the next entry. -/
theorem processEntry_total (json : String → List (String × Value)) (secret : Secret)
    (acc : List String) (env : String)
    (h : ∃ n v : String, strings.SplitN env "=" 2 = [n, v] ∧
      (strings.HasPrefix v "vault:" = true →
        ∃ s : String, (data json secret).lookup (strings.TrimPrefix v "vault:") = some (.str s))) :
    ∃ out : List String, processEntry json secret acc env = .done out := by
  obtain ⟨n, v, hsplit, hres⟩ := h
  by_cases hp : strings.HasPrefix v "vault:" = true
  · obtain ⟨s, hs⟩ := hres hp
    simp only [processEntry, hsplit, hp, if_true, hs, append]
    split <;> exact ⟨_, rfl⟩
  · simp only [Bool.not_eq_true] at hp
    simp only [processEntry, hsplit, hp, Bool.false_eq_true, if_false, append]
    split <;> exact ⟨_, rfl⟩

theorem processEnviron_total (json : String → List (String × Value)) (secret : Secret)
    (environ : List String)
    (h : ∀ x ∈ environ, ∃ n v : String, strings.SplitN x "=" 2 = [n, v] ∧
      (strings.HasPrefix v "vault:" = true →
        ∃ s : String, (data json secret).lookup (strings.TrimPrefix v "vault:") = some (.str s))) :
    ∀ acc : List String, ∃ out : List String,
      processEnviron json secret environ acc = .done out := by
  induction environ with
  | nil => intro acc; exact ⟨acc, rfl⟩
  | cons env rest ih =>
    intro acc
    obtain ⟨acc2, h2⟩ := processEntry_total json secret acc env (h env (List.mem_cons_self _ _))
    simp only [processEnviron, h2]
    exact ih (fun x hx => h x (List.mem_cons_of_mem _ hx)) acc2

/-- A round of the loop on a dangling reference is `os.Exit(1)`. -/
theorem processEntry_dangling (json : String → List (String × Value)) (secret : Secret)
    (acc : List String) (env name value : String)
    (hsplit : strings.SplitN env "=" 2 = [name, value])
    (hpre : strings.HasPrefix value "vault:" = true)
    (hkey : (data json secret).lookup (strings.TrimPrefix value "vault:") = none) :
    processEntry json secret acc env =
      .stop (.exit 1 ("key not found: " ++ strings.TrimPrefix value "vault:")) := by
  simp only [processEntry, hsplit, hpre, if_true, hkey]

/-- With a dangling reference among the entries the loop does not complete. -/
theorem processEnviron_dangling (json : String → List (String × Value)) (secret : Secret)
    (environ : List String) (env name value : String) (hin : env ∈ environ)
    (hsplit : strings.SplitN env "=" 2 = [name, value])
    (hpre : strings.HasPrefix value "vault:" = true)
    (hkey : (data json secret).lookup (strings.TrimPrefix value "vault:") = none)
    (acc out : List String) : processEnviron json secret environ acc ≠ .done out := by
  intro hdone
  obtain ⟨name2, value2, resolved, hsplit2, hres, _⟩ :=
    processEnviron_mem json secret environ acc out hdone env hin
  rw [hsplit] at hsplit2
  simp only [List.cons.injEq, and_true] at hsplit2
  obtain ⟨hn, hv⟩ := hsplit2
  subst hn hv
  rw [if_pos hpre, hkey] at hres
  exact absurd hres (by simp)

end vaultenv

namespace vaultenv

/-- A run with a dangling reference ends with exit status 1 or 2, without exec. -/
theorem main_dangling_status (json : String → List (String × Value)) (p : Process)
    (secret : Secret) (env name value : String)
    (hsecret : p.secret = some secret) (hin : env ∈ p.environ)
    (hsplit : strings.SplitN env "=" 2 = [name, value])
    (hpre : strings.HasPrefix value "vault:" = true)
    (hkey : (data json secret).lookup (strings.TrimPrefix value "vault:") = none) :
    (main json p).status = some 1 ∨ (main json p).status = some 2 := by
  unfold main
  simp only
  split
  · exact Or.inl rfl
  · split
    · exact Or.inl rfl
    · split
      · exact Or.inl rfl
      · split
        · exact Or.inr rfl
        · rw [hsecret]
          simp only
          cases hloop : processEnviron json secret p.environ [] with
          | stop e => exact processEnviron_stop json secret p.environ [] e hloop
          | done out =>
            exact absurd hloop
              (processEnviron_dangling json secret p.environ env name value hin hsplit hpre
                hkey [] out)

/-- A run that reaches the loop, with a dangling reference after entries that all
go through, ends with `os.Exit(1)` at that reference. -/
theorem main_dangling_exit (json : String → List (String × Value)) (p : Process)
    (secret : Secret) (pre post : List String) (env name value : String)
    (hsecret : p.secret = some secret) (henv : p.environ = pre ++ env :: post)
    (hsplit : strings.SplitN env "=" 2 = [name, value])
    (hpre : strings.HasPrefix value "vault:" = true)
    (hkey : (data json secret).lookup (strings.TrimPrefix value "vault:") = none)
    (hrole : Getenv p.environ "VAULT_ROLE" ≠ "") (hpath : Getenv p.environ "VAULT_PATH" ≠ "")
    (hclient : p.clientError = none) (hread : p.secretError = none)
    (hbefore : ∀ x ∈ pre, ∃ n v : String, strings.SplitN x "=" 2 = [n, v] ∧
      (strings.HasPrefix v "vault:" = true →
        ∃ s : String, (data json secret).lookup (strings.TrimPrefix v "vault:") = some (.str s))) :
    main json p = .exit 1 ("key not found: " ++ strings.TrimPrefix value "vault:") := by
  obtain ⟨acc, hacc⟩ := processEnviron_total json secret pre hbefore []
  have hloop : processEnviron json secret p.environ [] =
      .stop (.exit 1 ("key not found: " ++ strings.TrimPrefix value "vault:")) := by
    rw [henv, processEnviron_append, hacc]
    simp only [processEnviron, processEntry_dangling json secret acc env name value hsplit hpre hkey]
  simp only [main, if_neg hrole, if_neg hpath, hclient, hread, hsecret, hloop]

end vaultenv

namespace vaultenv

/-- C10 as stated fails: with the reference `PORT=vault:PORT` (a number in the
document) or an entry without `=` before the dangling reference
`DB_PASSWORD=vault:DB_PASSWORD`, the runtime ends in a run-time panic (exit
status 2) at the earlier entry, not with exit status 1 at the dangling one. -/
theorem C10_panic_before_dangling_reference :
    ("DB_PASSWORD=vault:DB_PASSWORD" ∈
        (exampleProcess ["PORT=vault:PORT", "DB_PASSWORD=vault:DB_PASSWORD"]).environ ∧
      strings.SplitN "DB_PASSWORD=vault:DB_PASSWORD" "=" 2 =
        ["DB_PASSWORD", "vault:DB_PASSWORD"] ∧
      ((data noObject flatSecret).lookup "DB_PASSWORD").isSome = false ∧
      main noObject (exampleProcess ["PORT=vault:PORT", "DB_PASSWORD=vault:DB_PASSWORD"]) =
        .panic "interface conversion: interface \x7b\x7d is not string" ∧
      (main noObject
        (exampleProcess ["PORT=vault:PORT", "DB_PASSWORD=vault:DB_PASSWORD"])).status ≠ some 1) ∧
    (main noObject (exampleProcess ["BROKEN", "DB_PASSWORD=vault:DB_PASSWORD"]) =
        .panic "index out of range [1] with length 1" ∧
      (main noObject
        (exampleProcess ["BROKEN", "DB_PASSWORD=vault:DB_PASSWORD"])).status ≠ some 1) := by
  decide

/-- C10, amended. When the inherited environment contains an entry whose value
is `vault:` followed by a key absent from the normalized secret document, the
runtime never reaches the exec of the target program and ends with a non-zero
exit status, whatever entries precede or follow; and when the loop is reached
and every entry before that one has a `=` and, if it is a reference, resolves to
a string, the runtime ends with exit status 1 at that entry, after the message
"key not found: <key>". -/
theorem C10_dangling_reference_never_execs (json : String → List (String × Value))
    (p : Process) (secret : Secret) (pre post : List String) (env name value : String)
    (hsecret : p.secret = some secret) (henv : p.environ = pre ++ env :: post)
    (hsplit : strings.SplitN env "=" 2 = [name, value])
    (hpre : strings.HasPrefix value "vault:" = true)
    (hkey : (data json secret).lookup (strings.TrimPrefix value "vault:") = none) :
    (∀ (binary : String) (argv envv : List String), main json p ≠ .exec binary argv envv) ∧
    (main json p).status ≠ none ∧ (main json p).status ≠ some 0 ∧
    (Getenv p.environ "VAULT_ROLE" ≠ "" → Getenv p.environ "VAULT_PATH" ≠ "" →
      p.clientError = none → p.secretError = none →
      (∀ x ∈ pre, ∃ n v : String, strings.SplitN x "=" 2 = [n, v] ∧
        (strings.HasPrefix v "vault:" = true →
          ∃ s : String,
            (data json secret).lookup (strings.TrimPrefix v "vault:") = some (.str s))) →
      main json p = .exit 1 ("key not found: " ++ strings.TrimPrefix value "vault:") ∧
      (main json p).status = some 1) := by
  have hin : env ∈ p.environ := by rw [henv]; simp
  have hst := main_dangling_status json p secret env name value hsecret hin hsplit hpre hkey
  refine ⟨?_, ?_, ?_, ?_⟩
  · intro binary argv envv hexec
    rw [hexec] at hst
    simp [Exit.status] at hst
  · rcases hst with h | h <;> simp [h]
  · rcases hst with h | h <;> simp [h]
  · intro hrole hpath hclient hread hbefore
    have hmain := main_dangling_exit json p secret pre post env name value hsecret henv hsplit
      hpre hkey hrole hpath hclient hread hbefore
    exact ⟨hmain, by rw [hmain]; rfl⟩

/-- C10 (amended) on a run whose environment has a plain entry and a resolvable
reference before the dangling reference `DB_PASSWORD=vault:DB_PASSWORD`, and an
entry after it that would panic: the run ends with exit status 1 and the
message "key not found: DB_PASSWORD". -/
theorem C10_dangling_reference_never_execs_witness :
    main noObject (exampleProcess
        ["HOME=/root", "API_KEY=vault:API_KEY", "DB_PASSWORD=vault:DB_PASSWORD",
          "PORT=vault:PORT"]) = .exit 1 "key not found: DB_PASSWORD" ∧
    (main noObject (exampleProcess
        ["HOME=/root", "API_KEY=vault:API_KEY", "DB_PASSWORD=vault:DB_PASSWORD",
          "PORT=vault:PORT"])).status = some 1 := by
  have h := C10_dangling_reference_never_execs noObject
    (exampleProcess ["HOME=/root", "API_KEY=vault:API_KEY", "DB_PASSWORD=vault:DB_PASSWORD",
      "PORT=vault:PORT"]) flatSecret
    ["VAULT_ROLE=some-role", "VAULT_PATH=/secret/some/path", "HOME=/root",
      "API_KEY=vault:API_KEY"]
    ["PORT=vault:PORT"] "DB_PASSWORD=vault:DB_PASSWORD" "DB_PASSWORD" "vault:DB_PASSWORD"
    rfl rfl (by decide) (by decide) (by rfl)
  refine h.2.2.2 (by decide) (by decide) rfl rfl ?_
  intro x hx
  simp only [List.mem_cons, List.mem_singleton, List.not_mem_nil, or_false] at hx
  rcases hx with rfl | rfl | rfl | rfl
  · exact ⟨"VAULT_ROLE", "some-role", by decide, fun hp => absurd hp (by decide)⟩
  · exact ⟨"VAULT_PATH", "/secret/some/path", by decide, fun hp => absurd hp (by decide)⟩
  · exact ⟨"HOME", "/root", by decide, fun hp => absurd hp (by decide)⟩
  · exact ⟨"API_KEY", "vault:API_KEY", by decide, fun _ => ⟨"xyz", by rfl⟩⟩

end vaultenv

/-! # Properties of the admission mutator, continued -/

namespace webhookmain

set_option maxRecDepth 20000 in
/-- The three checks after the first one name the annotation they miss. -/
theorem VaultSecretsMutator_names_missing (viper : Viper) (ctx : Context) (pod : Pod)
    (hns : hasNamespace ctx pod = true)
    (hEn : enabled pod = true)
    (hAddr : index pod.ObjectMeta.Annotations "vault.security/vault-addr" ≠ "") :
    (index pod.ObjectMeta.Annotations "vault.security/vault-tls-secret-name" = "" →
      ∃ err : String, VaultSecretsMutator viper ctx (.Pod pod) = .returned (.Pod pod) true (some err) ∧
        strings.Contains err "vault.security/vault-tls-secret-name" = true) ∧
    (index pod.ObjectMeta.Annotations "vault.security/vault-tls-secret-name" ≠ "" →
      index pod.ObjectMeta.Annotations "vault.security/vault-path" = "" →
      ∃ err : String, VaultSecretsMutator viper ctx (.Pod pod) = .returned (.Pod pod) true (some err) ∧
        strings.Contains err "vault.security/vault-path" = true) ∧
    (index pod.ObjectMeta.Annotations "vault.security/vault-tls-secret-name" ≠ "" →
      index pod.ObjectMeta.Annotations "vault.security/vault-path" ≠ "" →
      index pod.ObjectMeta.Annotations "vault.security/vault-role" = "" →
      ∃ err : String, VaultSecretsMutator viper ctx (.Pod pod) = .returned (.Pod pod) true (some err) ∧
        strings.Contains err "vault.security/vault-role" = true) := by
  obtain ⟨n, hn⟩ := namespaceOf_of_hasNamespace ctx pod hns
  simp only [enabled] at hEn
  refine ⟨?_, ?_, ?_⟩
  · intro h2
    refine ⟨"Error getting vault TLS secret name - make sure you set the annotation \"vault.security/vault-tls-secret-name\"", ?_, ?_⟩
    · simp only [VaultSecretsMutator, hn, parseVaultConfig, Object.meta, hEn, if_true, if_neg hAddr,
        if_pos h2]
    · decide
  · intro h2 h3
    refine ⟨"Error getting vault path - make sure you set the annotation \"vault.security/vault-path\"", ?_, ?_⟩
    · simp only [VaultSecretsMutator, hn, parseVaultConfig, Object.meta, hEn, if_true, if_neg hAddr,
        if_neg h2, if_pos h3]
    · decide
  · intro h2 h3 h4
    refine ⟨"Error getting vault role - make sure you set the annotation \"vault.security/vault-role\"", ?_, ?_⟩
    · simp only [VaultSecretsMutator, hn, parseVaultConfig, Object.meta, hEn, if_true, if_neg hAddr,
        if_neg h2, if_neg h3, if_pos h4]
    · decide

set_option maxRecDepth 20000 in
/-- C11 fails on the code for the annotation `vault.security/vault-addr`: on the
pod of the second test case without that annotation (the three others set),
`VaultSecretsMutator` returns an error whose message names
`vault.security/enabled` and does not contain `vault.security/vault-addr`; the
check with the right message comes later in the function and is never reached.
Without one of the three other annotations the message names the missing one. -/
theorem C11_missing_vault_addr_names_enabled :
    enabled (podWithout "vault.security/vault-addr") = true ∧
    (podWithout "vault.security/vault-addr").ObjectMeta.Annotations.lookup
      "vault.security/vault-addr" = none ∧
    VaultSecretsMutator {} {} (.Pod (podWithout "vault.security/vault-addr")) =
      .returned (.Pod (podWithout "vault.security/vault-addr")) true
        (some "Error getting vault address - make sure you set the annotation \"vault.security/enabled\" on the Pod") ∧
    strings.Contains
      "Error getting vault address - make sure you set the annotation \"vault.security/enabled\" on the Pod"
      "vault.security/vault-addr" = false ∧
    (∃ err : String,
      VaultSecretsMutator {} {} (.Pod (podWithout "vault.security/vault-tls-secret-name")) =
        .returned (.Pod (podWithout "vault.security/vault-tls-secret-name")) true (some err) ∧
      strings.Contains err "vault.security/vault-tls-secret-name" = true) ∧
    (∃ err : String,
      VaultSecretsMutator {} {} (.Pod (podWithout "vault.security/vault-path")) =
        .returned (.Pod (podWithout "vault.security/vault-path")) true (some err) ∧
      strings.Contains err "vault.security/vault-path" = true) ∧
    (∃ err : String,
      VaultSecretsMutator {} {} (.Pod (podWithout "vault.security/vault-role")) =
        .returned (.Pod (podWithout "vault.security/vault-role")) true (some err) ∧
      strings.Contains err "vault.security/vault-role" = true) := by
  refine ⟨by decide, by decide, by decide, by decide, ⟨_, rfl, by decide⟩, ⟨_, rfl, by decide⟩,
    ⟨_, rfl, by decide⟩⟩

end webhookmain

namespace webhookmain

/-- C16. Every container that `mutateContainers` mutates (one holding a `vault:`
reference) ends with its original volume mounts, each at its original position,
followed by exactly the mount "vault-env" at "/vault" and then the mount "tls"
at "/etc/tls". -/
theorem C16_mounts_appended (vaultConfig : VaultConfig) (containers : List Container)
    (ns : String) (i : Nat) (c : Container) (hi : containers[i]? = some c)
    (hc : holdsReference c = true) :
    ∃ c2 : Container,
      (mutateContainers containers vaultConfig ns).1[i]? = some c2 ∧
      c2.VolumeMounts = c.VolumeMounts ++
        [ { Name := "vault-env", MountPath := "/vault" },
          { Name := "tls", MountPath := "/etc/tls" } ] ∧
      ∀ (j : Nat) (m : VolumeMount), c.VolumeMounts[j]? = some m →
        c2.VolumeMounts[j]? = some m := by
  refine ⟨rewriteContainer c vaultConfig, ?_, rfl, ?_⟩
  · simp [mutateContainers_eq, List.getElem?_map, hi, mutateOne, hc]
  · intro j m hj
    have hlt : j < c.VolumeMounts.length := by
      rcases Nat.lt_or_ge j c.VolumeMounts.length with h | h
      · exact h
      · rw [List.getElem?_eq_none h] at hj
        exact absurd hj (by simp)
    show (c.VolumeMounts ++ _)[j]? = some m
    rw [List.getElem?_append_left hlt]
    exact hj

/-- C16 at the init containers of `podMixed`: the second one holds a reference
and has a mount "sql", which stays first. -/
theorem C16_mounts_appended_witness :
    podMixed.Spec.InitContainers[1]? = some migrateContainer ∧
    holdsReference migrateContainer = true ∧
    ∃ c2 : Container,
      (mutateContainers podMixed.Spec.InitContainers (parseVaultConfig (.Pod podMixed))
        "default").1[1]? = some c2 ∧
      c2.VolumeMounts = [ { Name := "sql", MountPath := "/sql" } ] ++
        [ { Name := "vault-env", MountPath := "/vault" },
          { Name := "tls", MountPath := "/etc/tls" } ] ∧
      ∀ (j : Nat) (m : VolumeMount), migrateContainer.VolumeMounts[j]? = some m →
        c2.VolumeMounts[j]? = some m :=
  ⟨by decide, by decide,
   C16_mounts_appended (parseVaultConfig (.Pod podMixed)) podMixed.Spec.InitContainers
     "default" 1 migrateContainer (by decide) (by decide)⟩

end webhookmain

namespace webhookmain

/-- The loop writes back a container that differs from the original in its
command, args, env and volume mounts only. -/
theorem mutateOne_frame (vaultConfig : VaultConfig) (c : Container) :
    mutateOne vaultConfig c =
      { c with
        Command := (mutateOne vaultConfig c).Command
        Args := (mutateOne vaultConfig c).Args
        Env := (mutateOne vaultConfig c).Env
        VolumeMounts := (mutateOne vaultConfig c).VolumeMounts } := by
  unfold mutateOne
  split <;> rfl

theorem getElem?_map_mutateOne_frame (vaultConfig : VaultConfig) (cs : List Container)
    (i : Nat) (c : Container) (hi : cs[i]? = some c) :
    ∃ c2 : Container, (cs.map (mutateOne vaultConfig))[i]? = some c2 ∧
      c2 = { c with Command := c2.Command, Args := c2.Args, Env := c2.Env,
                    VolumeMounts := c2.VolumeMounts } :=
  ⟨mutateOne vaultConfig c, by simp [List.getElem?_map, hi], mutateOne_frame vaultConfig c⟩

/-- What `MutatePodSpec` leaves alone: the container list keeps its length and,
position by position, each container equals the original one up to its command,
args, env and volume mounts; the init-container list is at most one staging
container followed by the pre-existing ones, each equal to the original up to
the same four fields; the original volumes are a prefix of the volume list. -/
theorem MutatePodSpec_frame (viper : Viper) (obj : Object) (podSpec : PodSpec)
    (vaultConfig : VaultConfig) (ns : String) :
    (MutatePodSpec viper obj podSpec vaultConfig ns).1.Containers.length =
      podSpec.Containers.length ∧
    (∀ (i : Nat) (c : Container), podSpec.Containers[i]? = some c →
      ∃ c2 : Container,
        (MutatePodSpec viper obj podSpec vaultConfig ns).1.Containers[i]? = some c2 ∧
        c2 = { c with Command := c2.Command, Args := c2.Args, Env := c2.Env,
                      VolumeMounts := c2.VolumeMounts }) ∧
    (∃ staging rest : List Container,
      (MutatePodSpec viper obj podSpec vaultConfig ns).1.InitContainers = staging ++ rest ∧
      staging.length ≤ 1 ∧ rest.length = podSpec.InitContainers.length ∧
      ∀ (i : Nat) (c : Container), podSpec.InitContainers[i]? = some c →
        ∃ c2 : Container, rest[i]? = some c2 ∧
          c2 = { c with Command := c2.Command, Args := c2.Args, Env := c2.Env,
                        VolumeMounts := c2.VolumeMounts }) ∧
    podSpec.Volumes <+: (MutatePodSpec viper obj podSpec vaultConfig ns).1.Volumes := by
  rw [MutatePodSpec_eq]
  split
  · refine ⟨by simp, ?_, ?_, ?_⟩
    · intro i c hi
      exact getElem?_map_mutateOne_frame _ _ i c hi
    · refine ⟨getInitContainers viper vaultConfig, _, rfl, ?_, by simp, ?_⟩
      · simp [getInitContainers]
      · intro i c hi
        exact getElem?_map_mutateOne_frame _ _ i c hi
    · exact List.prefix_append _ _
  · refine ⟨by simp, ?_, ?_, ?_⟩
    · intro i c hi
      exact getElem?_map_mutateOne_frame _ _ i c hi
    · refine ⟨[], _, rfl, Nat.zero_le 1, by simp, ?_⟩
      intro i c hi
      exact getElem?_map_mutateOne_frame _ _ i c hi
    · exact List.prefix_refl _

/-- C18. For every pod, the object as a call of `VaultSecretsMutator` leaves it
(the call returning or not) is the same pod with the same metadata (annotations
included); its container list has the same length and, position by position,
each container equals the original one up to its command, args, env and volume
mounts (name, image and pull policy kept); its init-container list is at most
one staging container followed by the pre-existing init containers in their
order, each equal to the original up to the same four fields; the original
volumes are a prefix of its volume list. -/
theorem C18_frame_of_the_mutation (viper : Viper) (ctx : Context) (pod : Pod) :
    ∃ spec : PodSpec,
      (VaultSecretsMutator viper ctx (.Pod pod)).object =
        .Pod { ObjectMeta := pod.ObjectMeta, Spec := spec } ∧
      spec.Containers.length = pod.Spec.Containers.length ∧
      (∀ (i : Nat) (c : Container), pod.Spec.Containers[i]? = some c →
        ∃ c2 : Container, spec.Containers[i]? = some c2 ∧
          c2 = { c with Command := c2.Command, Args := c2.Args, Env := c2.Env,
                        VolumeMounts := c2.VolumeMounts }) ∧
      (∃ staging rest : List Container, spec.InitContainers = staging ++ rest ∧
        staging.length ≤ 1 ∧ rest.length = pod.Spec.InitContainers.length ∧
        ∀ (i : Nat) (c : Container), pod.Spec.InitContainers[i]? = some c →
          ∃ c2 : Container, rest[i]? = some c2 ∧
            c2 = { c with Command := c2.Command, Args := c2.Args, Env := c2.Env,
                          VolumeMounts := c2.VolumeMounts }) ∧
      pod.Spec.Volumes <+: spec.Volumes := by
  have hsame : ∀ (cs : List Container) (i : Nat) (c : Container), cs[i]? = some c →
      ∃ c2 : Container, cs[i]? = some c2 ∧
        c2 = { c with Command := c2.Command, Args := c2.Args, Env := c2.Env,
                      VolumeMounts := c2.VolumeMounts } :=
    fun cs i c hi => ⟨c, hi, rfl⟩
  rcases VaultSecretsMutator_object viper ctx pod with h | h
  · exact ⟨pod.Spec, h, rfl, hsame _, ⟨[], pod.Spec.InitContainers, rfl,
      Nat.zero_le 1, rfl, hsame _⟩, List.prefix_refl _⟩
  · exact ⟨_, h, MutatePodSpec_frame viper (.Pod pod) pod.Spec _ ""⟩

/-- C18 on the mixed pod: names and images after the mutation; and on the same
pod without its namespace under a context without admission request, where the
call panics and the pod is as before. -/
theorem frame_example :
    (∃ spec : PodSpec,
      VaultSecretsMutator {} {} (.Pod podMixed) =
        .returned (.Pod { ObjectMeta := podMixed.ObjectMeta, Spec := spec }) false none ∧
      spec.Containers.map (fun c => (c.Name, c.Image)) =
        [("sidecar", "busybox"), ("alpine", "alpine")] ∧
      spec.InitContainers.map (fun c => (c.Name, c.Image)) =
        [("init", "innovia/vault-env:1.1.0"), ("sidecar", "busybox"), ("migrate", "flyway")]) ∧
    (VaultSecretsMutator {} {} (.Pod (withoutNamespace podMixed))).object =
      .Pod (withoutNamespace podMixed) := by
  refine ⟨⟨_, rfl, ?_, ?_⟩, ?_⟩ <;> decide

end webhookmain

namespace webhookmain

theorem rewriteContainer_fields (c : Container) (vaultConfig : VaultConfig) :
    (rewriteContainer c vaultConfig).Command = ["/vault/vault-env"] ∧
    (rewriteContainer c vaultConfig).Args = c.Command ++ c.Args ∧
    (rewriteContainer c vaultConfig).Env = c.Env ++ injectedEnv vaultConfig ∧
    (rewriteContainer c vaultConfig).VolumeMounts = c.VolumeMounts ++ injectedMounts :=
  ⟨rfl, rfl, rfl, rfl⟩

theorem holdsReference_rewriteContainer (c : Container) (vaultConfig : VaultConfig)
    (h : holdsReference c = true) : holdsReference (rewriteContainer c vaultConfig) = true := by
  have hEnv := (rewriteContainer_fields c vaultConfig).2.2.1
  unfold holdsReference at h ⊢
  rw [hEnv, List.any_append, h]
  rfl

theorem holdsReference_mutateOne (vaultConfig : VaultConfig) (c : Container) :
    holdsReference (mutateOne vaultConfig c) = holdsReference c := by
  by_cases h : holdsReference c = true
  · simp only [mutateOne, h, if_true]
    exact holdsReference_rewriteContainer c vaultConfig h
  · simp only [Bool.not_eq_true] at h
    simp [mutateOne, h]

theorem any_holdsReference_map_mutateOne (vaultConfig : VaultConfig) (cs : List Container) :
    (cs.map (mutateOne vaultConfig)).any holdsReference = cs.any holdsReference := by
  induction cs with
  | nil => rfl
  | cons c t ih => simp only [List.map_cons, List.any_cons, holdsReference_mutateOne, ih]

/-- A container that holds a reference, after two rounds of the loop. -/
theorem mutateOne_twice (vaultConfig : VaultConfig) (c : Container)
    (h : holdsReference c = true) :
    (mutateOne vaultConfig (mutateOne vaultConfig c)).Command = ["/vault/vault-env"] ∧
    (mutateOne vaultConfig (mutateOne vaultConfig c)).Args =
      "/vault/vault-env" :: (c.Command ++ c.Args) ∧
    (mutateOne vaultConfig (mutateOne vaultConfig c)).Env =
      c.Env ++ injectedEnv vaultConfig ++ injectedEnv vaultConfig ∧
    (mutateOne vaultConfig (mutateOne vaultConfig c)).VolumeMounts =
      c.VolumeMounts ++ injectedMounts ++ injectedMounts := by
  have h1 : mutateOne vaultConfig c = rewriteContainer c vaultConfig := by
    simp [mutateOne, h]
  have h2 : mutateOne vaultConfig (rewriteContainer c vaultConfig) =
      rewriteContainer (rewriteContainer c vaultConfig) vaultConfig := by
    simp [mutateOne, holdsReference_rewriteContainer c vaultConfig h]
  rw [h1, h2]
  exact ⟨rfl, rfl, rfl, rfl⟩

theorem mutateOne_getInitContainers (viper : Viper) (vaultConfig : VaultConfig) :
    (getInitContainers viper vaultConfig).map (mutateOne vaultConfig) =
      getInitContainers viper vaultConfig ∧
    (getInitContainers viper vaultConfig).any holdsReference = false := by
  constructor <;> simp [getInitContainers, mutateOne, holdsReference]

end webhookmain

namespace webhookmain

/-- A container that holds a reference, after two rounds of the loop, field by
field. -/
theorem mutateOne_twice_eq (pod : Pod) (c : Container) (h : holdsReference c = true) :
    mutateOne (parseVaultConfig (.Pod pod)) (mutateOne (parseVaultConfig (.Pod pod)) c) =
      { c with
        Command := ["/vault/vault-env"]
        Args := "/vault/vault-env" :: (c.Command ++ c.Args)
        Env := c.Env ++
          [ { Name := "VAULT_ADDR",
              Value := index pod.ObjectMeta.Annotations "vault.security/vault-addr" },
            { Name := "VAULT_PATH",
              Value := index pod.ObjectMeta.Annotations "vault.security/vault-path" },
            { Name := "VAULT_ROLE",
              Value := index pod.ObjectMeta.Annotations "vault.security/vault-role" },
            { Name := "VAULT_CAPATH", Value := "/etc/tls/ca.pem" } ] ++
          [ { Name := "VAULT_ADDR",
              Value := index pod.ObjectMeta.Annotations "vault.security/vault-addr" },
            { Name := "VAULT_PATH",
              Value := index pod.ObjectMeta.Annotations "vault.security/vault-path" },
            { Name := "VAULT_ROLE",
              Value := index pod.ObjectMeta.Annotations "vault.security/vault-role" },
            { Name := "VAULT_CAPATH", Value := "/etc/tls/ca.pem" } ]
        VolumeMounts := c.VolumeMounts ++
          [ { Name := "vault-env", MountPath := "/vault" },
            { Name := "tls", MountPath := "/etc/tls" } ] ++
          [ { Name := "vault-env", MountPath := "/vault" },
            { Name := "tls", MountPath := "/etc/tls" } ] } := by
  have h1 : mutateOne (parseVaultConfig (.Pod pod)) c =
      rewriteContainer c (parseVaultConfig (.Pod pod)) := by
    simp [mutateOne, h]
  have h2 : mutateOne (parseVaultConfig (.Pod pod))
      (rewriteContainer c (parseVaultConfig (.Pod pod))) =
      rewriteContainer (rewriteContainer c (parseVaultConfig (.Pod pod)))
        (parseVaultConfig (.Pod pod)) := by
    simp [mutateOne, holdsReference_rewriteContainer c _ h]
  rw [h1, h2]
  rfl

theorem mutateOne_twice_of_no_reference (vaultConfig : VaultConfig) (c : Container)
    (h : holdsReference c = false) : mutateOne vaultConfig (mutateOne vaultConfig c) = c := by
  simp [mutateOne, h]

/-- C14 as stated fails: the mixed pod is enabled, has the four annotations and
containers with a reference; without its namespace and under a context that
carries no admission request, the first application already panics and injects
nothing, and so does a second one on the pod it leaves. -/
theorem C14_two_applications_without_namespace_panic :
    enabled (withoutNamespace podMixed) = true ∧
    configured (withoutNamespace podMixed) = true ∧
    (∃ c ∈ (withoutNamespace podMixed).Spec.InitContainers ++
        (withoutNamespace podMixed).Spec.Containers, holdsReference c = true) ∧
    VaultSecretsMutator {} {} (.Pod (withoutNamespace podMixed)) =
      .panic (.Pod (withoutNamespace podMixed))
        "invalid memory address or nil pointer dereference" ∧
    VaultSecretsMutator {} {}
        (VaultSecretsMutator {} {} (.Pod (withoutNamespace podMixed))).object =
      .panic (.Pod (withoutNamespace podMixed))
        "invalid memory address or nil pointer dereference" ∧
    (withoutNamespace podMixed).Spec.InitContainers.map (fun c => c.Name) =
      ["sidecar", "migrate"] := by
  refine ⟨by decide, by decide, ⟨alpineContainer, by decide, by decide⟩, by decide, by decide,
    by decide⟩

/-- C14, amended. For an enabled pod with the four annotations non-empty and a
container (init or regular) holding a reference, that has a non-empty namespace
or is handled under a context that carries an admission request, a second
`VaultSecretsMutator` on the result of the first one returns `(false, nil)`
again and injects everything once more: the init-container list is the staging
container twice, then the original init containers in their order; the volume
list is the original volumes, then the two fixed volumes twice; each container
that holds a reference is the original one with the command
`["/vault/vault-env"]`, the args "/vault/vault-env" followed by its original
command and args, its original env followed by the four variables twice and its
original mounts followed by the two mounts twice (this container is `twice c`
below); each container that holds no reference is the original one. -/
theorem C14_second_application_injects_again (viper : Viper) (ctx : Context) (pod : Pod)
    (hns : hasNamespace ctx pod = true)
    (hEn : enabled pod = true) (hCfg : configured pod = true)
    (href : ∃ c ∈ pod.Spec.InitContainers ++ pod.Spec.Containers, holdsReference c = true) :
    ∃ (pod1 : Pod) (spec2 : PodSpec) (twice : Container → Container),
      (∀ c : Container, twice c =
        { c with
          Command := ["/vault/vault-env"]
          Args := "/vault/vault-env" :: (c.Command ++ c.Args)
          Env := c.Env ++
            [ { Name := "VAULT_ADDR",
                Value := index pod.ObjectMeta.Annotations "vault.security/vault-addr" },
              { Name := "VAULT_PATH",
                Value := index pod.ObjectMeta.Annotations "vault.security/vault-path" },
              { Name := "VAULT_ROLE",
                Value := index pod.ObjectMeta.Annotations "vault.security/vault-role" },
              { Name := "VAULT_CAPATH", Value := "/etc/tls/ca.pem" } ] ++
            [ { Name := "VAULT_ADDR",
                Value := index pod.ObjectMeta.Annotations "vault.security/vault-addr" },
              { Name := "VAULT_PATH",
                Value := index pod.ObjectMeta.Annotations "vault.security/vault-path" },
              { Name := "VAULT_ROLE",
                Value := index pod.ObjectMeta.Annotations "vault.security/vault-role" },
              { Name := "VAULT_CAPATH", Value := "/etc/tls/ca.pem" } ]
          VolumeMounts := c.VolumeMounts ++
            [ { Name := "vault-env", MountPath := "/vault" },
              { Name := "tls", MountPath := "/etc/tls" } ] ++
            [ { Name := "vault-env", MountPath := "/vault" },
              { Name := "tls", MountPath := "/etc/tls" } ] }) ∧
      VaultSecretsMutator viper ctx (.Pod pod) = .returned (.Pod pod1) false none ∧
      VaultSecretsMutator viper ctx (.Pod pod1) =
        .returned (.Pod { pod with Spec := spec2 }) false none ∧
      (∃ rest : List Container,
        spec2.InitContainers =
          { Name := "init", Image := viper.vault_env_image, ImagePullPolicy := "IfNotPresent"
            Command := ["sh", "-c", "cp /usr/local/bin/vault-env /vault/"]
            VolumeMounts := [ { Name := "vault-env", MountPath := "/vault" } ] } ::
          { Name := "init", Image := viper.vault_env_image, ImagePullPolicy := "IfNotPresent"
            Command := ["sh", "-c", "cp /usr/local/bin/vault-env /vault/"]
            VolumeMounts := [ { Name := "vault-env", MountPath := "/vault" } ] } :: rest ∧
        rest.length = pod.Spec.InitContainers.length ∧
        ∀ (i : Nat) (c : Container), pod.Spec.InitContainers[i]? = some c →
          (holdsReference c = true → rest[i]? = some (twice c)) ∧
          (holdsReference c = false → rest[i]? = some c)) ∧
      spec2.Volumes = pod.Spec.Volumes ++
        [ { Name := "vault-env", VolumeSource := .EmptyDir "Memory" },
          { Name := "tls", VolumeSource := .Secret
              (index pod.ObjectMeta.Annotations "vault.security/vault-tls-secret-name") } ] ++
        [ { Name := "vault-env", VolumeSource := .EmptyDir "Memory" },
          { Name := "tls", VolumeSource := .Secret
              (index pod.ObjectMeta.Annotations "vault.security/vault-tls-secret-name") } ] ∧
      spec2.Containers.length = pod.Spec.Containers.length ∧
      (∀ (i : Nat) (c : Container), pod.Spec.Containers[i]? = some c →
        (holdsReference c = true → spec2.Containers[i]? = some (twice c)) ∧
        (holdsReference c = false → spec2.Containers[i]? = some c)) := by
  obtain ⟨c0, hmem, hc0⟩ := href
  have hany : (pod.Spec.InitContainers.any holdsReference ||
      pod.Spec.Containers.any holdsReference) = true := by
    rw [← List.any_append, List.any_eq_true]
    exact ⟨c0, hmem, hc0⟩
  have h1 := VaultSecretsMutator_valid viper ctx pod hns hEn hCfg
  rw [MutatePodSpec_eq, if_pos hany] at h1
  simp only at h1
  have h2 := VaultSecretsMutator_valid viper ctx
    { pod with Spec :=
        { InitContainers := getInitContainers viper (parseVaultConfig (.Pod pod)) ++
            pod.Spec.InitContainers.map (mutateOne (parseVaultConfig (.Pod pod)))
          Containers := pod.Spec.Containers.map (mutateOne (parseVaultConfig (.Pod pod)))
          Volumes := pod.Spec.Volumes ++ getVolumes (parseVaultConfig (.Pod pod)) } }
    hns hEn hCfg
  have hany2 : ((getInitContainers viper (parseVaultConfig (.Pod pod)) ++
      pod.Spec.InitContainers.map (mutateOne (parseVaultConfig (.Pod pod)))).any holdsReference ||
      (pod.Spec.Containers.map (mutateOne (parseVaultConfig (.Pod pod)))).any holdsReference) =
      true := by
    rw [List.any_append, (mutateOne_getInitContainers viper _).2,
      any_holdsReference_map_mutateOne, any_holdsReference_map_mutateOne, Bool.false_or]
    exact hany
  have hcfg : ∀ s : PodSpec,
      parseVaultConfig (.Pod { ObjectMeta := pod.ObjectMeta, Spec := s }) =
        parseVaultConfig (.Pod pod) := fun _ => rfl
  rw [MutatePodSpec_eq] at h2
  simp only [hcfg] at h2
  rw [if_pos hany2] at h2
  have hpair : ∀ (cs : List Container) (i : Nat) (c : Container), cs[i]? = some c →
      (holdsReference c = true →
        ((cs.map (mutateOne (parseVaultConfig (.Pod pod)))).map
          (mutateOne (parseVaultConfig (.Pod pod))))[i]? =
          some (mutateOne (parseVaultConfig (.Pod pod))
            (mutateOne (parseVaultConfig (.Pod pod)) c))) ∧
      (holdsReference c = false →
        ((cs.map (mutateOne (parseVaultConfig (.Pod pod)))).map
          (mutateOne (parseVaultConfig (.Pod pod))))[i]? = some c) := by
    intro cs i c hi
    refine ⟨fun _ => by simp [List.getElem?_map, hi], fun hc => ?_⟩
    simp [List.getElem?_map, hi, mutateOne_twice_of_no_reference _ c hc]
  refine ⟨_, _, _, fun c => rfl, h1, h2, ?_, ?_, ?_, ?_⟩
  · refine ⟨(pod.Spec.InitContainers.map (mutateOne (parseVaultConfig (.Pod pod)))).map
      (mutateOne (parseVaultConfig (.Pod pod))), ?_, by simp, ?_⟩
    · show _ ++ List.map _ (_ ++ _) = _
      rw [List.map_append, (mutateOne_getInitContainers viper _).1]
      rfl
    · intro i c hi
      refine ⟨fun hc => ?_, (hpair _ i c hi).2⟩
      rw [(hpair _ i c hi).1 hc, mutateOne_twice_eq pod c hc]
  · show pod.Spec.Volumes ++ _ ++ _ = _
    rfl
  · show (List.map _ (List.map _ _)).length = _
    simp
  · intro i c hi
    refine ⟨fun hc => ?_, (hpair _ i c hi).2⟩
    show (List.map _ (List.map _ _))[i]? = _
    rw [(hpair _ i c hi).1 hc, mutateOne_twice_eq pod c hc]

end webhookmain

namespace webhookmain

/-- C14 (amended) on the mixed pod: two applications give two staging containers,
the two volumes twice, the sidecar as it was and the container of the second
test case with everything injected twice. -/
theorem C14_second_application_injects_again_witness :
    hasNamespace {} podMixed = true ∧
    enabled podMixed = true ∧ configured podMixed = true ∧
    (∃ c ∈ podMixed.Spec.InitContainers ++ podMixed.Spec.Containers,
      holdsReference c = true) ∧
    ∃ (pod1 : Pod) (spec2 : PodSpec),
      VaultSecretsMutator {} {} (.Pod podMixed) = .returned (.Pod pod1) false none ∧
      VaultSecretsMutator {} {} (.Pod pod1) =
        .returned (.Pod { podMixed with Spec := spec2 }) false none ∧
      spec2.Volumes =
        [ { Name := "data", VolumeSource := .Other "hostPath" },
          { Name := "vault-env", VolumeSource := .EmptyDir "Memory" },
          { Name := "tls", VolumeSource := .Secret "vault-consul-ca" },
          { Name := "vault-env", VolumeSource := .EmptyDir "Memory" },
          { Name := "tls", VolumeSource := .Secret "vault-consul-ca" } ] ∧
      spec2.Containers[0]? = some sidecarContainer ∧
      ∃ c2 : Container, spec2.Containers[1]? = some c2 ∧
        c2.Command = ["/vault/vault-env"] ∧
        c2.Args = ["/vault/vault-env", "user-command", "with", "extra", "args"] ∧
        c2.Env.map (fun e => e.Name) =
          ["AWS_SECRET_ACCESS_KEY", "VAULT_ADDR", "VAULT_PATH", "VAULT_ROLE", "VAULT_CAPATH",
            "VAULT_ADDR", "VAULT_PATH", "VAULT_ROLE", "VAULT_CAPATH"] := by
  have href : ∃ c ∈ podMixed.Spec.InitContainers ++ podMixed.Spec.Containers,
      holdsReference c = true := ⟨alpineContainer, by decide, by decide⟩
  obtain ⟨pod1, spec2, twice, htw, h1, h2, _, hv, _, hc⟩ :=
    C14_second_application_injects_again {} {} podMixed (by decide) (by decide) (by decide) href
  have hs := (hc 0 sidecarContainer (by decide)).2 (by decide)
  have ha := (hc 1 alpineContainer (by decide)).1 (by decide)
  refine ⟨by decide, by decide, by decide, href, pod1, spec2, h1, h2, ?_, hs,
    twice alpineContainer, ha, ?_, ?_, ?_⟩
  · rw [hv]; decide
  · rw [htw]
  · rw [htw]; rfl
  · rw [htw]; rfl

/-- Two applications on the mixed pod, evaluated. -/
theorem second_application_example :
    ∃ (pod1 : Pod) (spec2 : PodSpec),
      VaultSecretsMutator {} {} (.Pod podMixed) = .returned (.Pod pod1) false none ∧
      VaultSecretsMutator {} {} (.Pod pod1) =
        .returned (.Pod { podMixed with Spec := spec2 }) false none ∧
      spec2.InitContainers.map (fun c => c.Name) = ["init", "init", "sidecar", "migrate"] ∧
      spec2.Volumes.map (fun v => v.Name) = ["data", "vault-env", "tls", "vault-env", "tls"] ∧
      spec2.Containers.map (fun c => c.Env.map (fun e => e.Name)) =
        [ ["VAULT_ADDR"],
          ["AWS_SECRET_ACCESS_KEY", "VAULT_ADDR", "VAULT_PATH", "VAULT_ROLE", "VAULT_CAPATH",
            "VAULT_ADDR", "VAULT_PATH", "VAULT_ROLE", "VAULT_CAPATH"] ] := by
  refine ⟨_, _, rfl, rfl, ?_, ?_, ?_⟩ <;> decide

end webhookmain

/-! # Properties of the runtime, continued -/

namespace strings

/-- An entry that splits in two is its name, a `=` and its value, and the name has
no `=`. -/
theorem SplitN_eq_pair (env name value : String) (h : SplitN env "=" 2 = [name, value]) :
    env = name ++ "=" ++ value ∧ '=' ∉ name.data := by
  rcases SplitN_cases env with ⟨_, hs⟩ | ⟨a, b, henv, hna, hs⟩
  · rw [hs] at h
    simp at h
  · rw [hs] at h
    simp only [List.cons.injEq, and_true] at h
    obtain ⟨hn, hv⟩ := h
    subst hn hv
    refine ⟨?_, hna⟩
    rw [henv]
    apply String.ext
    simp [String.data_append]

end strings

namespace vaultenv

theorem entryName_join (name value : String) (h : '=' ∉ name.data) :
    entryName (name ++ "=" ++ value) = name := by
  simp [entryName, strings.SplitN_join name value h]

/-- The output of the loop is the list it started from followed by entries whose
names are, in order, names of the entries processed. -/
theorem processEnviron_sublist (json : String → List (String × Value)) (secret : Secret)
    (environ : List String) :
    ∀ acc out : List String, processEnviron json secret environ acc = .done out →
      ∃ l : List String, out = acc ++ l ∧
        (l.map entryName).Sublist (environ.map entryName) := by
  induction environ with
  | nil =>
    intro acc out h
    simp only [processEnviron] at h
    injection h with h
    exact ⟨[], by simp [h], by simp⟩
  | cons env rest ih =>
    intro acc out h
    simp only [processEnviron] at h
    cases hstep : processEntry json secret acc env with
    | stop x => simp [hstep] at h
    | done acc2 =>
      simp only [hstep] at h
      obtain ⟨l, hl, hsub⟩ := ih acc2 out h
      obtain ⟨name, value, resolved, hsplit, hname, _, _, hacc2⟩ :=
        processEntry_done json secret acc acc2 env hstep
      by_cases hs : (sanitizeEnvmap.lookup name).isSome = true
      · rw [if_pos hs] at hacc2
        refine ⟨l, by rw [hl, hacc2], ?_⟩
        simp only [List.map_cons]
        exact List.Sublist.cons _ hsub
      · rw [if_neg hs] at hacc2
        refine ⟨(name ++ "=" ++ resolved) :: l, by rw [hl, hacc2]; simp, ?_⟩
        have hn : entryName env = name := by simp [entryName, hsplit]
        simp only [List.map_cons, entryName_join name resolved hname, hn]
        exact List.Sublist.cons₂ _ hsub

/-- C12. When the sanitizing loop completes, every inherited entry whose value
does not start with `vault:` and whose name is not a key of `sanitizeEnvmap`
is in the output as the same string `name=value`; and the names of the output
entries are a subsequence of the names of the inherited entries (same relative
order, no name changed, nothing added). -/
theorem C12_pass_through_and_order (json : String → List (String × Value)) (secret : Secret)
    (environ sanitized : List String)
    (h : processEnviron json secret environ [] = .done sanitized) :
    (∀ env name value : String, env ∈ environ →
      strings.SplitN env "=" 2 = [name, value] →
      strings.HasPrefix value "vault:" = false →
      name ∉ sanitizeEnvmap.map Prod.fst →
      env = name ++ "=" ++ value ∧ env ∈ sanitized) ∧
    (sanitized.map entryName).Sublist (environ.map entryName) ∧
    sanitized.length ≤ environ.length := by
  have hsub : (sanitized.map entryName).Sublist (environ.map entryName) := by
    obtain ⟨l, hl, hsub⟩ := processEnviron_sublist json secret environ [] sanitized h
    simp only [List.nil_append] at hl
    rw [hl]
    exact hsub
  refine ⟨?_, hsub, ?_⟩
  · intro env name value hin hsplit hpre hname
    obtain ⟨name2, value2, resolved, hsplit2, hres, hout⟩ :=
      processEnviron_mem json secret environ [] sanitized h env hin
    rw [hsplit] at hsplit2
    simp only [List.cons.injEq, and_true] at hsplit2
    obtain ⟨hn, hv⟩ := hsplit2
    subst hn hv
    rw [hpre] at hres
    simp only [Bool.false_eq_true, if_false] at hres
    have henv := (strings.SplitN_eq_pair env name value hsplit).1
    refine ⟨henv, ?_⟩
    have hmem := hout (lookup_isSome_eq_false_of_not_mem name hname)
    rw [hres, ← henv] at hmem
    exact hmem
  · have hlen := hsub.length_le
    simpa using hlen

/-- C12 on the example environment: `HOME=/root` passes through unchanged and the
names `HOME`, `API_KEY` of the output come in the order of the input. -/
theorem C12_pass_through_and_order_witness :
    processEnviron noObject flatSecret exampleEnviron [] = .done ["HOME=/root", "API_KEY=xyz"] ∧
    ("HOME=/root" = "HOME" ++ "=" ++ "/root" ∧ "HOME=/root" ∈ ["HOME=/root", "API_KEY=xyz"]) ∧
    (["HOME=/root", "API_KEY=xyz"].map entryName).Sublist (exampleEnviron.map entryName) ∧
    ["HOME=/root", "API_KEY=xyz"].map entryName = ["HOME", "API_KEY"] ∧
    exampleEnviron.map entryName =
      ["HOME", "API_KEY", "VAULT_TOKEN", "VAULT_ADDR", "VAULT_PATH", "VAULT_ROLE",
        "VAULT_CAPATH"] :=
  ⟨by decide,
   (C12_pass_through_and_order noObject flatSecret exampleEnviron _ (by decide)).1
     "HOME=/root" "HOME" "/root" (by decide) (by decide) (by decide) (by decide),
   (C12_pass_through_and_order noObject flatSecret exampleEnviron _ (by decide)).2.1,
   by decide, by decide⟩

end vaultenv

namespace vaultenv

/-- One round of the loop on an entry with a `=` whose reference, if it is one,
does not look up a non-string: the loop goes on, or the reference is dangling
and the round is `os.Exit(1)`. -/
theorem processEntry_cases (json : String → List (String × Value)) (secret : Secret)
    (acc : List String) (env : String) (hEq : '=' ∈ env.data)
    (hStr : ∀ (name value : String) (x : Value), strings.SplitN env "=" 2 = [name, value] →
      strings.HasPrefix value "vault:" = true →
      (data json secret).lookup (strings.TrimPrefix value "vault:") = some x →
      ∃ s : String, x = .str s) :
    (∃ out : List String, processEntry json secret acc env = .done out) ∨
    (∃ name value : String, strings.SplitN env "=" 2 = [name, value] ∧
      strings.HasPrefix value "vault:" = true ∧
      (data json secret).lookup (strings.TrimPrefix value "vault:") = none ∧
      processEntry json secret acc env =
        .stop (.exit 1 ("key not found: " ++ strings.TrimPrefix value "vault:"))) := by
  rcases strings.SplitN_cases env with ⟨hno, _⟩ | ⟨a, b, _, _, hs⟩
  · exact absurd hEq hno
  · by_cases hp : strings.HasPrefix (String.mk b) "vault:" = true
    · cases hl : (data json secret).lookup (strings.TrimPrefix (String.mk b) "vault:") with
      | none =>
        exact Or.inr ⟨String.mk a, String.mk b, hs, hp, hl,
          processEntry_dangling json secret acc env _ _ hs hp hl⟩
      | some x =>
        obtain ⟨s, hx⟩ := hStr (String.mk a) (String.mk b) x hs hp hl
        exact Or.inl (processEntry_total json secret acc env
          ⟨String.mk a, String.mk b, hs, fun _ => ⟨s, by rw [hl, hx]⟩⟩)
    · exact Or.inl (processEntry_total json secret acc env
        ⟨String.mk a, String.mk b, hs, fun h => absurd h hp⟩)

theorem processEnviron_cases (json : String → List (String × Value)) (secret : Secret)
    (environ : List String) (hEq : ∀ env ∈ environ, '=' ∈ env.data)
    (hStr : ∀ env ∈ environ, ∀ (name value : String) (x : Value),
      strings.SplitN env "=" 2 = [name, value] →
      strings.HasPrefix value "vault:" = true →
      (data json secret).lookup (strings.TrimPrefix value "vault:") = some x →
      ∃ s : String, x = .str s) :
    ∀ acc : List String,
      (∃ out : List String, processEnviron json secret environ acc = .done out) ∨
      (∃ env ∈ environ, ∃ name value : String, strings.SplitN env "=" 2 = [name, value] ∧
        strings.HasPrefix value "vault:" = true ∧
        (data json secret).lookup (strings.TrimPrefix value "vault:") = none ∧
        processEnviron json secret environ acc =
          .stop (.exit 1 ("key not found: " ++ strings.TrimPrefix value "vault:"))) := by
  induction environ with
  | nil => intro acc; exact Or.inl ⟨acc, rfl⟩
  | cons e rest ih =>
    intro acc
    have hEq2 : ∀ env ∈ rest, '=' ∈ env.data := fun env h => hEq env (List.mem_cons_of_mem _ h)
    have hStr2 : ∀ env ∈ rest, ∀ (name value : String) (x : Value),
        strings.SplitN env "=" 2 = [name, value] →
        strings.HasPrefix value "vault:" = true →
        (data json secret).lookup (strings.TrimPrefix value "vault:") = some x →
        ∃ s : String, x = .str s := fun env h => hStr env (List.mem_cons_of_mem _ h)
    rcases processEntry_cases json secret acc e (hEq e (List.mem_cons_self _ _))
        (hStr e (List.mem_cons_self _ _)) with ⟨acc2, h2⟩ | ⟨name, value, hs, hp, hl, hstop⟩
    · rcases ih hEq2 hStr2 acc2 with ⟨out, hout⟩ | ⟨env, hin, name, value, hs, hp, hl, hstop⟩
      · exact Or.inl ⟨out, by simp only [processEnviron, h2, hout]⟩
      · exact Or.inr ⟨env, List.mem_cons_of_mem _ hin, name, value, hs, hp, hl,
          by simp only [processEnviron, h2, hstop]⟩
    · exact Or.inr ⟨e, List.mem_cons_self _ _, name, value, hs, hp, hl,
        by simp only [processEnviron, hstop]⟩

/-- C19. When every inherited entry contains a `=` and every value that a
reference looks up in the secret document is a string, the loop has no failing
index access and no failing type assertion: it completes with a sanitized
environment, or it exits with status 1 through the dangling-reference branch
(at an entry whose key is absent from the document); and every entry splits at
its first `=` into a name and a value that, joined by `=`, give the entry back. -/
theorem C19_loop_is_panic_free (json : String → List (String × Value)) (secret : Secret)
    (environ : List String) (hEq : ∀ env ∈ environ, '=' ∈ env.data)
    (hStr : ∀ env ∈ environ, ∀ (name value : String) (x : Value),
      strings.SplitN env "=" 2 = [name, value] →
      strings.HasPrefix value "vault:" = true →
      (data json secret).lookup (strings.TrimPrefix value "vault:") = some x →
      ∃ s : String, x = .str s) :
    ((∃ sanitized : List String, processEnviron json secret environ [] = .done sanitized) ∨
      (∃ env ∈ environ, ∃ name value : String, strings.SplitN env "=" 2 = [name, value] ∧
        strings.HasPrefix value "vault:" = true ∧
        (data json secret).lookup (strings.TrimPrefix value "vault:") = none ∧
        processEnviron json secret environ [] =
          .stop (.exit 1 ("key not found: " ++ strings.TrimPrefix value "vault:")))) ∧
    (∀ msg : String, processEnviron json secret environ [] ≠ .stop (.panic msg)) ∧
    (∀ env ∈ environ, ∃ name value : String,
      strings.SplitN env "=" 2 = [name, value] ∧ '=' ∉ name.data ∧
      name ++ "=" ++ value = env) := by
  have hcases := processEnviron_cases json secret environ hEq hStr []
  refine ⟨hcases, ?_, ?_⟩
  · intro msg hpanic
    rcases hcases with ⟨out, hout⟩ | ⟨_, _, _, _, _, _, _, hstop⟩
    · rw [hout] at hpanic
      exact absurd hpanic (by simp)
    · rw [hstop] at hpanic
      exact absurd hpanic (by simp)
  · intro env hin
    rcases strings.SplitN_cases env with ⟨hno, _⟩ | ⟨a, b, _, _, hs⟩
    · exact absurd (hEq env hin) hno
    · obtain ⟨hjoin, hna⟩ := strings.SplitN_eq_pair env _ _ hs
      exact ⟨String.mk a, String.mk b, hs, hna, hjoin.symm⟩

end vaultenv

namespace vaultenv

/-- The precondition of C19 on the values, for an entry whose split is known. -/
theorem strings_looked_up_of_split (json : String → List (String × Value)) (secret : Secret)
    (env name0 value0 : String) (hs0 : strings.SplitN env "=" 2 = [name0, value0])
    (h : strings.HasPrefix value0 "vault:" = true → ∀ x : Value,
      (data json secret).lookup (strings.TrimPrefix value0 "vault:") = some x →
      ∃ s : String, x = .str s) :
    ∀ (name value : String) (x : Value), strings.SplitN env "=" 2 = [name, value] →
      strings.HasPrefix value "vault:" = true →
      (data json secret).lookup (strings.TrimPrefix value "vault:") = some x →
      ∃ s : String, x = .str s := by
  intro name value x hs hp hl
  rw [hs0] at hs
  simp only [List.cons.injEq, and_true] at hs
  obtain ⟨_, hv⟩ := hs
  subst hv
  exact h hp x hl

/-- C19 on two environments: one with a resolvable reference, where the loop
completes, and one with a dangling reference, where it exits with status 1. -/
theorem C19_loop_is_panic_free_witness :
    ((∀ env ∈ ["HOME=/root", "API_KEY=vault:API_KEY"], '=' ∈ env.data) ∧
      processEnviron noObject flatSecret ["HOME=/root", "API_KEY=vault:API_KEY"] [] =
        .done ["HOME=/root", "API_KEY=xyz"] ∧
      ∀ msg : String,
        processEnviron noObject flatSecret ["HOME=/root", "API_KEY=vault:API_KEY"] [] ≠
          .stop (.panic msg)) ∧
    ((∀ env ∈ ["HOME=/root", "DB_PASSWORD=vault:DB_PASSWORD"], '=' ∈ env.data) ∧
      processEnviron noObject flatSecret ["HOME=/root", "DB_PASSWORD=vault:DB_PASSWORD"] [] =
        .stop (.exit 1 "key not found: DB_PASSWORD") ∧
      ∀ msg : String,
        processEnviron noObject flatSecret ["HOME=/root", "DB_PASSWORD=vault:DB_PASSWORD"] [] ≠
          .stop (.panic msg)) := by
  have hHome := strings_looked_up_of_split noObject flatSecret "HOME=/root" "HOME" "/root"
    (by decide) (fun hp => absurd hp (by decide))
  have hKey := strings_looked_up_of_split noObject flatSecret "API_KEY=vault:API_KEY"
    "API_KEY" "vault:API_KEY" (by decide)
    (fun _ x hx => ⟨"xyz", by
      have hk : (data noObject flatSecret).lookup
          (strings.TrimPrefix "vault:API_KEY" "vault:") = some (.str "xyz") := by rfl
      rw [hk] at hx
      injection hx with hx
      exact hx.symm⟩)
  have hDb := strings_looked_up_of_split noObject flatSecret "DB_PASSWORD=vault:DB_PASSWORD"
    "DB_PASSWORD" "vault:DB_PASSWORD" (by decide)
    (fun _ x hx => by
      have hk : (data noObject flatSecret).lookup
          (strings.TrimPrefix "vault:DB_PASSWORD" "vault:") = none := by rfl
      rw [hk] at hx
      exact absurd hx (by simp))
  refine ⟨⟨by decide, by decide, ?_⟩, ⟨by decide, by decide, ?_⟩⟩
  · refine (C19_loop_is_panic_free noObject flatSecret ["HOME=/root", "API_KEY=vault:API_KEY"]
      (by decide) ?_).2.1
    intro env hin
    simp only [List.mem_cons, List.mem_singleton, List.not_mem_nil, or_false] at hin
    rcases hin with rfl | rfl
    · exact hHome
    · exact hKey
  · refine (C19_loop_is_panic_free noObject flatSecret
      ["HOME=/root", "DB_PASSWORD=vault:DB_PASSWORD"] (by decide) ?_).2.1
    intro env hin
    simp only [List.mem_cons, List.mem_singleton, List.not_mem_nil, or_false] at hin
    rcases hin with rfl | rfl
    · exact hHome
    · exact hDb

end vaultenv

namespace vaultenv

/-- A run that gets as far as the read of the secret path and gets an error from
it ends in a run-time panic: `err`, the nil error of the client creation, is
dereferenced while the arguments of `log.Fatalf` are built. -/
theorem main_read_error (json : String → List (String × Value)) (p : Process) (e : String)
    (hrole : Getenv p.environ "VAULT_ROLE" ≠ "") (hpath : Getenv p.environ "VAULT_PATH" ≠ "")
    (hclient : p.clientError = none) (hread : p.secretError = some e) :
    main json p = .panic "invalid memory address or nil pointer dereference" := by
  simp only [main, if_neg hrole, if_neg hpath, hclient, hread]

/-- A run that gets as far as the read of the secret path and gets neither an
error nor a secret ends with the "not found" diagnostic. -/
theorem main_not_found (json : String → List (String × Value)) (p : Process)
    (hrole : Getenv p.environ "VAULT_ROLE" ≠ "") (hpath : Getenv p.environ "VAULT_PATH" ≠ "")
    (hclient : p.clientError = none) (hread : p.secretError = none)
    (hsecret : p.secret = none) :
    main json p = .fatal ("Vault secret path not found: " ++ Getenv p.environ "VAULT_PATH") := by
  simp only [main, if_neg hrole, if_neg hpath, hclient, hread, hsecret]

/-- C15 fails on the code for the read error: in a run where the login succeeds
and `client.Logical.Read` returns the error "permission denied", `main` does not
end with the diagnostic "Failed to read secret '/secret/some/path': permission
denied" but in a run-time panic (exit status 2), because the message is built
from `err`, the nil error of the client creation, not from `secretError`. The
"not found" branch is as the claim says, and no run of the two reaches exec. -/
theorem C15_read_error_panics :
    readErrorProcess.secretError = some "permission denied" ∧
    main noObject readErrorProcess =
      .panic "invalid memory address or nil pointer dereference" ∧
    main noObject readErrorProcess ≠
      .fatal "Failed to read secret '/secret/some/path': permission denied" ∧
    (main noObject readErrorProcess).status = some 2 ∧
    main noObject notFoundProcess =
      .fatal "Vault secret path not found: /secret/some/path" := by
  decide

end vaultenv

namespace vaultenv

/-- Two texts with different first characters are different. -/
theorem ne_of_head_ne (s t : String) (h : s.data.head? ≠ t.data.head?) : s ≠ t := by
  intro hst
  exact h (by rw [hst])

theorem head_append (s t : String) (c : Char) (h : s.data.head? = some c) :
    (s ++ t).data.head? = some c := by
  rw [String.data_append]
  cases hs : s.data with
  | nil => rw [hs] at h; simp at h
  | cons a l => rw [hs] at h; simpa using h

theorem append_stop_shape (acc : List String) (iname ivalue : Value) (e : Exit)
    (h : append acc iname ivalue = .stop e) : ∃ msg : String, e = .panic msg := by
  unfold append at h
  split at h
  · split at h <;> simp at h
  · injection h with h
    exact ⟨_, h.symm⟩

theorem processEntry_stop_shape (json : String → List (String × Value)) (secret : Secret)
    (acc : List String) (env : String) (e : Exit)
    (h : processEntry json secret acc env = .stop e) :
    (∃ msg : String, e = .exit 1 msg) ∨ (∃ msg : String, e = .panic msg) := by
  simp only [processEntry] at h
  split at h
  · injection h with h; exact Or.inr ⟨_, h.symm⟩
  · injection h with h; exact Or.inr ⟨_, h.symm⟩
  · split at h
    · split at h
      · exact Or.inr (append_stop_shape _ _ _ _ h)
      · injection h with h; exact Or.inl ⟨_, h.symm⟩
    · exact Or.inr (append_stop_shape _ _ _ _ h)

/-- The loop ends the process only through `os.Exit(1)` or a panic, never through
`log.Fatal`. -/
theorem processEnviron_stop_shape (json : String → List (String × Value)) (secret : Secret)
    (environ : List String) :
    ∀ (acc : List String) (e : Exit), processEnviron json secret environ acc = .stop e →
      (∃ msg : String, e = .exit 1 msg) ∨ (∃ msg : String, e = .panic msg) := by
  induction environ with
  | nil => intro acc e h; simp [processEnviron] at h
  | cons env rest ih =>
    intro acc e h
    simp only [processEnviron] at h
    cases hstep : processEntry json secret acc env with
    | stop x =>
      simp only [hstep] at h
      injection h with h
      exact h ▸ processEntry_stop_shape json secret acc env x hstep
    | done acc2 =>
      simp only [hstep] at h
      exact ih acc2 e h

end vaultenv

namespace vaultenv

theorem launch_no_command (p : Process) (sanitized : List String) (h : p.Args.length = 1) :
    launch p sanitized = .fatal noCommandDiagnostic := by
  simp only [launch, h, if_true]
  rfl

theorem launch_command (p : Process) (sanitized : List String) (arg0 arg1 : String)
    (rest : List String) (h : p.Args = arg0 :: arg1 :: rest) :
    launch p sanitized =
      match p.LookPath arg1 with
      | none => .fatal ("Binary not found: " ++ arg1)
      | some binary =>
        match p.execError with
        | some err => .fatal ("Failed to exec process '" ++ binary ++ "': " ++ err)
        | none => .exec binary (arg1 :: rest) sanitized := by
  simp [launch, h]

theorem launch_command_ne_noCommand (p : Process) (sanitized : List String)
    (arg0 arg1 : String) (rest : List String) (h : p.Args = arg0 :: arg1 :: rest) :
    launch p sanitized ≠ .fatal noCommandDiagnostic := by
  have hN : noCommandDiagnostic.data.head? = some 'N' := by
    unfold noCommandDiagnostic
    exact head_append _ _ 'N' rfl
  rw [launch_command p sanitized arg0 arg1 rest h]
  cases p.LookPath arg1 with
  | none =>
    simp only
    intro hf
    injection hf with hf
    exact ne_of_head_ne _ _
      (by rw [head_append "Binary not found: " arg1 'B' rfl, hN]; decide) hf
  | some binary =>
    simp only
    cases p.execError with
    | some err =>
      simp only
      intro hf
      injection hf with hf
      refine ne_of_head_ne _ _ ?_ hf
      rw [head_append ("Failed to exec process '" ++ binary ++ "': ") err 'F'
        (head_append ("Failed to exec process '" ++ binary) "': " 'F'
          (head_append "Failed to exec process '" binary 'F' rfl)), hN]
      decide
    | none =>
      simp only
      intro hf
      exact absurd hf (by simp)

/-- A run ends with the "No command is given" diagnostic only from the command
check, with `os.Args` of length one. -/
theorem main_noCommand_only_from_launch (json : String → List (String × Value)) (p : Process)
    (h : main json p = .fatal noCommandDiagnostic) : p.Args.length = 1 := by
  have hN : noCommandDiagnostic.data.head? = some 'N' := by
    unfold noCommandDiagnostic
    exact head_append _ _ 'N' rfl
  unfold main at h
  simp only at h
  split at h
  · injection h with h
    exact absurd h (ne_of_head_ne _ _ (by rw [hN]; decide))
  · split at h
    · injection h with h
      exact absurd h (ne_of_head_ne _ _ (by rw [hN]; decide))
    · split at h
      · injection h with h
        exact absurd h (ne_of_head_ne _ _
          (by rw [head_append "Failed to create vault client: " _ 'F' rfl, hN]; decide))
      · split at h
        · exact absurd h (by simp)
        · split at h
          · injection h with h
            exact absurd h (ne_of_head_ne _ _
              (by rw [head_append "Vault secret path not found: " _ 'V' rfl, hN]; decide))
          · split at h
            · next e hloop =>
              rcases processEnviron_stop_shape json _ p.environ [] e hloop with
                ⟨m, hm⟩ | ⟨m, hm⟩
              · rw [hm] at h; exact absurd h (by simp)
              · rw [hm] at h; exact absurd h (by simp)
            · next sanitized hloop =>
              by_contra hlen
              cases hA : p.Args with
              | nil =>
                simp [launch, hA] at h
              | cons arg0 t =>
                cases t with
                | nil => exact hlen (by rw [hA]; rfl)
                | cons arg1 rest =>
                  exact launch_command_ne_noCommand p sanitized arg0 arg1 rest hA h

/-- A run whose steps before the command check all succeed is the launch on the
sanitized environment. -/
theorem main_eq_launch (json : String → List (String × Value)) (p : Process)
    (secret : Secret) (sanitized : List String)
    (hrole : Getenv p.environ "VAULT_ROLE" ≠ "") (hpath : Getenv p.environ "VAULT_PATH" ≠ "")
    (hclient : p.clientError = none) (hread : p.secretError = none)
    (hsecret : p.secret = some secret)
    (hloop : processEnviron json secret p.environ [] = .done sanitized) :
    main json p = launch p sanitized := by
  simp only [main, if_neg hrole, if_neg hpath, hclient, hread, hsecret, hloop]

end vaultenv

namespace vaultenv

/-- C13 as stated fails: the container `entrypointContainer` holds a reference
and has neither command nor args; started with `os.Args` = its mutated command
and args, the runtime does not end with the "No command is given" diagnostic
when a step before the command check ends the run: with the document
`flatSecret`, which lacks the key, it exits with "key not found", and with a
failed login it ends with "Failed to create vault client". -/
theorem C13_empty_command_without_the_diagnostic :
    webhookmain.holdsReference webhookmain.entrypointContainer = true ∧
    webhookmain.entrypointContainer.Command = [] ∧
    webhookmain.entrypointContainer.Args = [] ∧
    (containerProcess (webhookmain.mutateOne
        (webhookmain.parseVaultConfig (.Pod webhookmain.podEnabled))
        webhookmain.entrypointContainer)).Args = ["/vault/vault-env"] ∧
    main noObject
        { containerProcess (webhookmain.mutateOne
            (webhookmain.parseVaultConfig (.Pod webhookmain.podEnabled))
            webhookmain.entrypointContainer) with secret := some flatSecret } =
      .exit 1 "key not found: AWS_SECRET_ACCESS_KEY" ∧
    main noObject
        { containerProcess (webhookmain.mutateOne
            (webhookmain.parseVaultConfig (.Pod webhookmain.podEnabled))
            webhookmain.entrypointContainer) with clientError := some "connection refused" } =
      .fatal "Failed to create vault client: connection refused" ∧
    main noObject
        { containerProcess (webhookmain.mutateOne
            (webhookmain.parseVaultConfig (.Pod webhookmain.podEnabled))
            webhookmain.entrypointContainer) with secret := some flatSecret } ≠
      .fatal noCommandDiagnostic := by
  decide

/-- C13, amended. Take a container mutated by the webhook and start the runtime
with `os.Args` = the mutated command followed by the mutated args. Then
`os.Args[1:]` is the original command followed by the original args; whenever
the runtime execs, the argument vector it passes is that vector, the program it
looked up on the search path is the first element of it, and the environment
is the sanitized one; the command check ends with the "No command is given"
diagnostic (a fatal exit, no exec) exactly when the original command and args
are both empty. For the run as a whole: it ends with that diagnostic only when
both are empty, and, when both are empty, it does so provided the steps before
the command check succeed (`VAULT_ROLE` and `VAULT_PATH` set, login and read
successful, the sanitizing loop complete). -/
theorem C13_exec_vector_is_original_invocation (vaultConfig : webhookmain.VaultConfig)
    (c : webhookmain.Container) (p : Process)
    (hc : webhookmain.holdsReference c = true)
    (hArgs : p.Args = (webhookmain.mutateOne vaultConfig c).Command ++
      (webhookmain.mutateOne vaultConfig c).Args) :
    p.Args.drop 1 = c.Command ++ c.Args ∧
    (∀ (sanitized : List String) (binary : String) (argv envv : List String),
      launch p sanitized = .exec binary argv envv →
      argv = c.Command ++ c.Args ∧ envv = sanitized ∧
      ∃ (arg1 : String) (rest : List String), argv = arg1 :: rest ∧
        p.LookPath arg1 = some binary) ∧
    (∀ (sanitized : List String) (arg1 binary : String) (rest : List String),
      c.Command ++ c.Args = arg1 :: rest → p.LookPath arg1 = some binary →
      p.execError = none → launch p sanitized = .exec binary (c.Command ++ c.Args) sanitized) ∧
    (∀ sanitized : List String,
      launch p sanitized = .fatal noCommandDiagnostic ↔ (c.Command = [] ∧ c.Args = [])) ∧
    (∀ json : String → List (String × Value),
      main json p = .fatal noCommandDiagnostic → c.Command = [] ∧ c.Args = []) ∧
    (∀ (json : String → List (String × Value)) (secret : Secret) (sanitized : List String),
      Getenv p.environ "VAULT_ROLE" ≠ "" → Getenv p.environ "VAULT_PATH" ≠ "" →
      p.clientError = none → p.secretError = none → p.secret = some secret →
      processEnviron json secret p.environ [] = .done sanitized →
      main json p = launch p sanitized ∧
      (main json p = .fatal noCommandDiagnostic ↔ (c.Command = [] ∧ c.Args = []))) := by
  have hA : p.Args = "/vault/vault-env" :: (c.Command ++ c.Args) := by
    rw [hArgs]
    simp [webhookmain.mutateOne, hc, webhookmain.rewriteContainer]
  have hiff : ∀ sanitized : List String,
      launch p sanitized = .fatal noCommandDiagnostic ↔ (c.Command = [] ∧ c.Args = []) := by
    intro sanitized
    constructor
    · intro hl
      cases hca : c.Command ++ c.Args with
      | nil => exact List.append_eq_nil.mp hca
      | cons arg1 rest =>
        rw [hca] at hA
        exact absurd hl (launch_command_ne_noCommand p sanitized _ arg1 rest hA)
    · rintro ⟨h1, h2⟩
      apply launch_no_command
      rw [hA, h1, h2]
      rfl
  have hlen : p.Args.length = 1 → c.Command = [] ∧ c.Args = [] := by
    intro h
    rw [hA] at h
    simp only [List.length_cons, add_left_eq_self, List.length_eq_zero] at h
    exact List.append_eq_nil.mp h
  refine ⟨by rw [hA]; rfl, ?_, ?_, hiff, ?_, ?_⟩
  · intro sanitized binary argv envv hl
    cases hca : c.Command ++ c.Args with
    | nil =>
      have h1 : p.Args.length = 1 := by rw [hA, hca]; rfl
      rw [launch_no_command p sanitized h1] at hl
      exact absurd hl (by simp)
    | cons arg1 rest =>
      rw [hca] at hA
      rw [launch_command p sanitized _ arg1 rest hA] at hl
      cases hlp : p.LookPath arg1 with
      | none => rw [hlp] at hl; exact absurd hl (by simp)
      | some b =>
        rw [hlp] at hl
        simp only at hl
        cases hee : p.execError with
        | some err => rw [hee] at hl; exact absurd hl (by simp)
        | none =>
          rw [hee] at hl
          simp only at hl
          injection hl with hb hargv henvv
          exact ⟨hargv.symm, henvv.symm, arg1, rest, hargv.symm, by rw [← hb]; exact hlp⟩
  · intro sanitized arg1 binary rest hca hlp hee
    rw [hca] at hA ⊢
    rw [launch_command p sanitized _ arg1 rest hA, hlp]
    simp only [hee]
  · intro json hm
    exact hlen (main_noCommand_only_from_launch json p hm)
  · intro json secret sanitized hrole hpath hclient hread hsecret hloop
    have hm := main_eq_launch json p secret sanitized hrole hpath hclient hread hsecret hloop
    exact ⟨hm, by rw [hm]; exact hiff sanitized⟩

end vaultenv

namespace vaultenv

/-- C13 (amended) on the container of the second test case of the webhook, and on
a container without command and args, both with a document that holds the key:
the first run execs `user-command with extra args`, the second ends with the
diagnostic. -/
theorem C13_exec_vector_is_original_invocation_witness :
    webhookmain.holdsReference webhookmain.alpineContainer = true ∧
    (containerProcess (webhookmain.mutateOne
        (webhookmain.parseVaultConfig (.Pod webhookmain.podEnabled))
        webhookmain.alpineContainer)).Args.drop 1 =
      ["user-command"] ++ ["with", "extra", "args"] ∧
    main noObject (containerProcess (webhookmain.mutateOne
        (webhookmain.parseVaultConfig (.Pod webhookmain.podEnabled))
        webhookmain.alpineContainer)) =
      .exec "/usr/bin/user-command" ["user-command", "with", "extra", "args"]
        ["PATH=/usr/bin", "AWS_SECRET_ACCESS_KEY=wJalr"] ∧
    webhookmain.holdsReference webhookmain.entrypointContainer = true ∧
    main noObject (containerProcess (webhookmain.mutateOne
        (webhookmain.parseVaultConfig (.Pod webhookmain.podEnabled))
        webhookmain.entrypointContainer)) = .fatal noCommandDiagnostic := by
  have h1 := C13_exec_vector_is_original_invocation
    (webhookmain.parseVaultConfig (.Pod webhookmain.podEnabled)) webhookmain.alpineContainer
    (containerProcess (webhookmain.mutateOne
      (webhookmain.parseVaultConfig (.Pod webhookmain.podEnabled))
      webhookmain.alpineContainer)) (by decide) rfl
  have h2 := C13_exec_vector_is_original_invocation
    (webhookmain.parseVaultConfig (.Pod webhookmain.podEnabled)) webhookmain.entrypointContainer
    (containerProcess (webhookmain.mutateOne
      (webhookmain.parseVaultConfig (.Pod webhookmain.podEnabled))
      webhookmain.entrypointContainer)) (by decide) rfl
  refine ⟨by decide, h1.1, by decide, by decide, ?_⟩
  exact ((h2.2.2.2.2.2 noObject awsSecret ["PATH=/usr/bin", "AWS_SECRET_ACCESS_KEY=wJalr"]
    (by decide) (by decide)
    rfl rfl rfl (by decide)).2).mpr ⟨rfl, rfl⟩

end vaultenv

namespace vaultenv

theorem launch_exec_env (p : Process) (sanitized : List String) (binary : String)
    (argv envv : List String) (h : launch p sanitized = .exec binary argv envv) :
    envv = sanitized := by
  unfold launch at h
  split at h
  · exact absurd h (by simp)
  · split at h
    · exact absurd h (by simp)
    · split at h
      · exact absurd h (by simp)
      · split at h
        · exact absurd h (by simp)
        · injection h with _ _ h3
          exact h3.symm

/-- A run that execs went through the loop, and the environment it passes to the
target program is the one the loop completed with. -/
theorem main_exec (json : String → List (String × Value)) (p : Process) (binary : String)
    (argv envv : List String) (h : main json p = .exec binary argv envv) :
    ∃ secret : Secret, p.secret = some secret ∧
      processEnviron json secret p.environ [] = .done envv := by
  unfold main at h
  simp only at h
  split at h
  · exact absurd h (by simp)
  · split at h
    · exact absurd h (by simp)
    · split at h
      · exact absurd h (by simp)
      · split at h
        · exact absurd h (by simp)
        · split at h
          · exact absurd h (by simp)
          · next secret hsecret =>
            split at h
            · next e hloop =>
              rcases processEnviron_stop_shape json _ p.environ [] e hloop with ⟨m, hm⟩ | ⟨m, hm⟩
              · rw [hm] at h; exact absurd h (by simp)
              · rw [hm] at h; exact absurd h (by simp)
            · next sanitized hloop =>
              have he := launch_exec_env p sanitized binary argv envv h
              exact ⟨secret, hsecret, he ▸ hloop⟩

/-- The names of the four variables have no `=` and are keys of `sanitizeEnvmap`. -/
theorem injected_names_allow_listed :
    ∀ n ∈ ["VAULT_ADDR", "VAULT_PATH", "VAULT_ROLE", "VAULT_CAPATH"],
      '=' ∉ n.data ∧ (sanitizeEnvmap.lookup n).isSome = true ∧
      n ∈ sanitizeEnvmap.map Prod.fst := by
  decide

/-- When the loop completes, no entry of its output is `n=value` for a key `n`
of `sanitizeEnvmap` without `=`. -/
theorem processEnviron_no_allow_listed (json : String → List (String × Value))
    (secret : Secret) (environ sanitized : List String)
    (h : processEnviron json secret environ [] = .done sanitized) (n value : String)
    (hn : '=' ∉ n.data) (hs : (sanitizeEnvmap.lookup n).isSome = true) :
    n ++ "=" ++ value ∉ sanitized ∧ ∀ e ∈ sanitized, entryName e ≠ n := by
  have hQ := processEnviron_forall json secret
    (fun e => ∃ name v : String, strings.SplitN e "=" 2 = [name, v] ∧
      (sanitizeEnvmap.lookup name).isSome = false)
    (fun name resolved hname hl => ⟨name, resolved, strings.SplitN_join name resolved hname, hl⟩)
    environ [] sanitized h (by simp)
  constructor
  · intro hmem
    obtain ⟨name, v, hsplit, hl⟩ := hQ _ hmem
    rw [strings.SplitN_join n value hn] at hsplit
    simp only [List.cons.injEq, and_true] at hsplit
    rw [← hsplit.1, hs] at hl
    exact absurd hl (by simp)
  · intro e he hen
    obtain ⟨name, v, hsplit, hl⟩ := hQ e he
    have : entryName e = name := by simp [entryName, hsplit]
    rw [this] at hen
    rw [hen, hs] at hl
    exact absurd hl (by simp)

end vaultenv

namespace vaultenv

/-- C17. The variables that the webhook appends to a mutated container are
VAULT_ADDR, VAULT_PATH, VAULT_ROLE and VAULT_CAPATH, and each of these names is a
key of the allow-list `sanitizeEnvmap` of the runtime; so whenever the loop of
the runtime completes, its sanitized environment holds no entry under one of
the four names, whatever the value, and a target program that is exec-ed never
receives one. -/
theorem C17_injected_variables_are_filtered (json : String → List (String × Value))
    (secret : Secret) (vaultConfig : webhookmain.VaultConfig) (c : webhookmain.Container)
    (environ sanitized : List String)
    (hc : webhookmain.holdsReference c = true)
    (h : processEnviron json secret environ [] = .done sanitized) :
    (webhookmain.mutateOne vaultConfig c).Env = c.Env ++ webhookmain.injectedEnv vaultConfig ∧
    (webhookmain.injectedEnv vaultConfig).map (fun ev => ev.Name) =
      ["VAULT_ADDR", "VAULT_PATH", "VAULT_ROLE", "VAULT_CAPATH"] ∧
    (∀ ev ∈ webhookmain.injectedEnv vaultConfig, ev.Name ∈ sanitizeEnvmap.map Prod.fst) ∧
    (∀ ev ∈ webhookmain.injectedEnv vaultConfig, ∀ value : String,
      ev.Name ++ "=" ++ value ∉ sanitized) ∧
    (∀ e ∈ sanitized, entryName e ∉ (webhookmain.injectedEnv vaultConfig).map (fun ev => ev.Name)) ∧
    (∀ (p : Process) (binary : String) (argv envv : List String),
      main json p = .exec binary argv envv →
      ∀ ev ∈ webhookmain.injectedEnv vaultConfig, ∀ value : String,
        ev.Name ++ "=" ++ value ∉ envv) := by
  have hnames : (webhookmain.injectedEnv vaultConfig).map (fun ev => ev.Name) =
      ["VAULT_ADDR", "VAULT_PATH", "VAULT_ROLE", "VAULT_CAPATH"] := rfl
  have hmem : ∀ ev ∈ webhookmain.injectedEnv vaultConfig,
      ev.Name ∈ ["VAULT_ADDR", "VAULT_PATH", "VAULT_ROLE", "VAULT_CAPATH"] := by
    intro ev hev
    rw [← hnames]
    exact List.mem_map.mpr ⟨ev, hev, rfl⟩
  refine ⟨?_, hnames, ?_, ?_, ?_, ?_⟩
  · simp [webhookmain.mutateOne, hc, webhookmain.rewriteContainer, webhookmain.injectedEnv]
  · intro ev hev
    exact (injected_names_allow_listed ev.Name (hmem ev hev)).2.2
  · intro ev hev value
    obtain ⟨h1, h2, _⟩ := injected_names_allow_listed ev.Name (hmem ev hev)
    exact (processEnviron_no_allow_listed json secret environ sanitized h ev.Name value h1 h2).1
  · intro e he hin
    rw [hnames] at hin
    obtain ⟨h1, h2, _⟩ := injected_names_allow_listed (entryName e) hin
    exact (processEnviron_no_allow_listed json secret environ sanitized h (entryName e) "" h1
      h2).2 e he rfl
  · intro p binary argv envv hexec ev hev value
    obtain ⟨secret2, _, hloop⟩ := main_exec json p binary argv envv hexec
    obtain ⟨h1, h2, _⟩ := injected_names_allow_listed ev.Name (hmem ev hev)
    exact (processEnviron_no_allow_listed json secret2 p.environ envv hloop ev.Name value h1
      h2).1

/-- C17 on the container of the second test case of the webhook: the environment
of the mutated container holds the four variables, the sanitized environment
is the resolved secret alone. -/
theorem C17_injected_variables_are_filtered_witness :
    webhookmain.holdsReference webhookmain.alpineContainer = true ∧
    environOf (webhookmain.mutateOne (webhookmain.parseVaultConfig (.Pod webhookmain.podEnabled))
        webhookmain.alpineContainer).Env =
      [ "AWS_SECRET_ACCESS_KEY=vault:AWS_SECRET_ACCESS_KEY",
        "VAULT_ADDR=https://vault.default.svc.cluster.local:8200",
        "VAULT_PATH=/secret/some/path",
        "VAULT_ROLE=some-role",
        "VAULT_CAPATH=/etc/tls/ca.pem" ] ∧
    processEnviron noObject awsSecret
        (environOf (webhookmain.mutateOne
          (webhookmain.parseVaultConfig (.Pod webhookmain.podEnabled))
          webhookmain.alpineContainer).Env) [] = .done ["AWS_SECRET_ACCESS_KEY=wJalr"] ∧
    (∀ ev ∈ webhookmain.injectedEnv (webhookmain.parseVaultConfig (.Pod webhookmain.podEnabled)),
      ∀ value : String, ev.Name ++ "=" ++ value ∉ ["AWS_SECRET_ACCESS_KEY=wJalr"]) :=
  ⟨by decide, by decide, by decide,
   (C17_injected_variables_are_filtered noObject awsSecret
     (webhookmain.parseVaultConfig (.Pod webhookmain.podEnabled)) webhookmain.alpineContainer
     (environOf (webhookmain.mutateOne
       (webhookmain.parseVaultConfig (.Pod webhookmain.podEnabled))
       webhookmain.alpineContainer).Env)
     ["AWS_SECRET_ACCESS_KEY=wJalr"] (by decide) (by decide)).2.2.2.1⟩

end vaultenv
